import Mathlib

/-! ## aerospike-operator: backup/restore handler, status conditions, pod utilities

A shallow embedding of

* `pkg/backuphandler/handler.go`  (`AerospikeBackupsHandler.handle`)
* `pkg/backuprestore/status.go`   (`isFailedOrFinished`)
* `pkg/reconciler/podutils.go`    (`byIndex`, `podIndex`, `waitPodReadyToShutdown`)

Go `error` values are `Option GoError` (`none` is `nil`).  Calls that leave the
function under study (helper methods of the handler, the event recorder, the
data-layer client) are recorded, in program order, in a ghost trace, so that
"is not called", "is called once" and "is called before" are statements about
a list.  Logging calls (`log.WithFields(...).Debug`) have no effect on state or
result and are not modelled.
-/

/-! ## Go errors -/

/-- Go `error` values met by the code under study.  `apiStatus` is a Kubernetes
API status error carrying its `metav1.StatusReason`; `namespaceNotExists` and
`invalidSecretFileName` are the two package-level sentinels of `pkg/errors`
(plain error values, compared by identity); `other` is any other error. -/
inductive GoError where
  | apiStatus (reason : String) (message : String)
  | namespaceNotExists
  | invalidSecretFileName
  | other (message : String)
  deriving DecidableEq, Repr

namespace metav1

/-- Status reason `metav1.StatusReasonNotFound`. -/
def StatusReasonNotFound : String := "NotFound"

end metav1

namespace errors

/-- Predicate `errors.IsNotFound` of `k8s.io/apimachinery/pkg/api/errors`: the error is
an API status error whose reason is `NotFound`. -/
def IsNotFound : GoError → Bool
  | .apiStatus reason _ => reason == metav1.StatusReasonNotFound
  | _ => false

end errors

namespace aerospikeErrors

/-- Modelled from the spec: `pkg/errors` is not among the sources; the sentinel
returned when the cluster is found but "does not contain the named namespace". -/
def NamespaceNotExists : GoError := GoError.namespaceNotExists

/-- Modelled from the spec: `pkg/errors` is not among the sources; the sentinel
returned when the secret is found but is "missing the required file key". -/
def InvalidSecretFileName : GoError := GoError.invalidSecretFileName

end aerospikeErrors

/-! ## `pkg/backuphandler/handler.go` -/

namespace backuphandler

/-- Go type `actionType`: the discriminator of a request. -/
inductive actionType where
  | backupAction
  | restoreAction
  deriving DecidableEq, Repr

/-- Go type `aerospikev1alpha1.TargetNamespace`. -/
structure TargetNamespace where
  Cluster : String
  Namespace : String
  deriving DecidableEq, Repr

/-- Go type `BackupRestoreObject` (handler.go:67-77).  `Obj` stands for the wrapped
API object (the target of recorded events), `Type_` for the Go field `Type`
(a reserved word here); `ObjectMeta` and `Storage` are only
handed on to the helper methods and are carried as their serialised form. -/
structure BackupRestoreObject where
  Action : actionType
  Type_ : String
  Obj : String
  Name : String
  Namespace : String
  UID : String
  ObjectMeta : String
  Storage : String
  Target : TargetNamespace
  deriving DecidableEq, Repr

namespace v1

/-- Event type `v1.EventTypeWarning`. -/
def EventTypeWarning : String := "Warning"

end v1

namespace events

/-- Reason code `events.ReasonInvalidTarget`. -/
def ReasonInvalidTarget : String := "InvalidTarget"

/-- Reason code `events.ReasonInvalidSecret`. -/
def ReasonInvalidSecret : String := "InvalidSecret"

end events

/-- One observable step of a pass of `handle`, in program order: a call of one of
the handler's helper methods, or a call `h.recorder.Eventf(object, eventtype,
reason, messageFmt, args...)`. -/
inductive Call where
  | operationAlreadyPerformed
  | ensureJobDoesNotExist
  | ensureClusterExists
  | ensureSecretExists
  | createJob
  | addCompletedCondition
  | Eventf (object : String) (eventtype : String) (reason : String)
      (messageFmt : String) (args : List String)
  deriving DecidableEq, Repr

/-- The receiver `h *AerospikeBackupsHandler` as seen by `handle`: its helper
methods (defined in files that are not among the sources) act on the state `σ` of
the resource API and caches and return `nil` or an error; `secretFileName` is the
package constant naming the required file of the secret. -/
structure AerospikeBackupsHandler (σ : Type) where
  operationAlreadyPerformed : BackupRestoreObject → σ → Bool × σ
  ensureJobDoesNotExist : BackupRestoreObject → σ → Option GoError × σ
  ensureClusterExists : BackupRestoreObject → σ → Option GoError × σ
  ensureSecretExists : BackupRestoreObject → σ → Option GoError × σ
  createJob : BackupRestoreObject → σ → Option GoError × σ
  addCompletedCondition : BackupRestoreObject → σ → Option GoError × σ
  secretFileName : String

/-- The resource API and caches (`api`) together with the ghost trace of the
calls made so far. -/
structure World (σ : Type) where
  api : σ
  trace : List Call

/-- Run a helper method on the current state and log the call. -/
def invoke {σ α : Type} (c : Call) (f : σ → α × σ) (w : World σ) : α × World σ :=
  ((f w.api).1, ⟨(f w.api).2, w.trace ++ [c]⟩)

/-- Call `h.recorder.Eventf(object, eventtype, reason, messageFmt, args...)`. -/
def Eventf {σ : Type} (object eventtype reason messageFmt : String) (args : List String)
    (w : World σ) : World σ :=
  ⟨w.api, w.trace ++ [Call.Eventf object eventtype reason messageFmt args]⟩

/-- Method `AerospikeBackupsHandler.handle` (handler.go:110-164). -/
def handle {σ : Type} (h : AerospikeBackupsHandler σ) (obj : BackupRestoreObject)
    (w0 : World σ) : Option GoError × World σ :=
  match invoke Call.operationAlreadyPerformed (h.operationAlreadyPerformed obj) w0 with
  | (true, w1) => (none, w1)
  | (false, w1) =>
    match invoke Call.ensureJobDoesNotExist (h.ensureJobDoesNotExist obj) w1 with
    | (some err, w2) => (some err, w2)
    | (none, w2) =>
      match invoke Call.ensureClusterExists (h.ensureClusterExists obj) w2 with
      | (some err, w3) =>
        let w4 :=
          if errors.IsNotFound err then
            Eventf obj.Obj v1.EventTypeWarning events.ReasonInvalidTarget
              "cluster %s does not exist" [obj.Target.Cluster] w3
          else w3
        let w5 :=
          if err = aerospikeErrors.NamespaceNotExists then
            Eventf obj.Obj v1.EventTypeWarning events.ReasonInvalidTarget
              "cluster %s does not contain a namespace named %s"
              [obj.Target.Cluster, obj.Target.Namespace] w4
          else w4
        (some err, w5)
      | (none, w3) =>
        match invoke Call.ensureSecretExists (h.ensureSecretExists obj) w3 with
        | (some err, w4) =>
          let w5 :=
            if errors.IsNotFound err then
              Eventf obj.Obj v1.EventTypeWarning events.ReasonInvalidSecret
                "specified secret does not exist" [] w4
            else w4
          let w6 :=
            if err = aerospikeErrors.InvalidSecretFileName then
              Eventf obj.Obj v1.EventTypeWarning events.ReasonInvalidSecret
                "secret does not contain expected file (Expected \"%s\")"
                [h.secretFileName] w5
            else w5
          (some err, w6)
        | (none, w4) =>
          match invoke Call.createJob (h.createJob obj) w4 with
          | (some err, w5) => (some err, w5)
          | (none, w5) =>
            match invoke Call.addCompletedCondition (h.addCompletedCondition obj) w5 with
            | (some err, w6) => (some err, w6)
            | (none, w6) => (none, w6)

/-- One reconciliation pass on the state `s`, starting from an empty trace. -/
def pass {σ : Type} (h : AerospikeBackupsHandler σ) (obj : BackupRestoreObject)
    (s : σ) : Option GoError × World σ :=
  handle h obj ⟨s, []⟩

/-- Whether a trace entry is a recorded event. -/
def Call.isEvent : Call → Bool
  | .Eventf _ _ _ _ _ => true
  | _ => false

/-- Whether a trace entry is a recorded event with the given reason code. -/
def Call.isEventWithReason (reason : String) : Call → Bool
  | .Eventf _ _ r _ _ => r == reason
  | _ => false

/-- State in which the job-exists check runs: after the terminal check. -/
def stateAtJobCheck {σ : Type} (h : AerospikeBackupsHandler σ) (obj : BackupRestoreObject)
    (s : σ) : σ :=
  (h.operationAlreadyPerformed obj s).2

/-- State in which the target validation runs: after the job-exists check. -/
def stateAtTargetCheck {σ : Type} (h : AerospikeBackupsHandler σ)
    (obj : BackupRestoreObject) (s : σ) : σ :=
  (h.ensureJobDoesNotExist obj (stateAtJobCheck h obj s)).2

/-- State in which the secret validation runs: after the target validation. -/
def stateAtSecretCheck {σ : Type} (h : AerospikeBackupsHandler σ)
    (obj : BackupRestoreObject) (s : σ) : σ :=
  (h.ensureClusterExists obj (stateAtTargetCheck h obj s)).2

/-- State in which the Job is created: after the secret validation. -/
def stateAtCreateJob {σ : Type} (h : AerospikeBackupsHandler σ)
    (obj : BackupRestoreObject) (s : σ) : σ :=
  (h.ensureSecretExists obj (stateAtSecretCheck h obj s)).2

/-- State in which the condition is appended: after the Job creation. -/
def stateAtCompletion {σ : Type} (h : AerospikeBackupsHandler σ)
    (obj : BackupRestoreObject) (s : σ) : σ :=
  (h.createJob obj (stateAtCreateJob h obj s)).2

/-- A concrete handler on the state "number of Jobs created so far", whose checks
answer as given; used to run `handle` on concrete inputs. -/
def exampleHandler (done : Bool) (job cluster secret create completed : Option GoError) :
    AerospikeBackupsHandler Nat where
  operationAlreadyPerformed := fun _ s => (done, s)
  ensureJobDoesNotExist := fun _ s => (job, s)
  ensureClusterExists := fun _ s => (cluster, s)
  ensureSecretExists := fun _ s => (secret, s)
  createJob := fun _ s => (create, if create = none then s + 1 else s)
  addCompletedCondition := fun _ s => (completed, s)
  secretFileName := "key.json"

/-- A restore request targeting namespace `ns1` of cluster `db-missing`. -/
def exampleObject : BackupRestoreObject where
  Action := actionType.restoreAction
  Type_ := "aerospikeNamespaceBackup"
  Obj := "default/restore-1"
  Name := "restore-1"
  Namespace := "default"
  UID := "uid-1"
  ObjectMeta := ""
  Storage := ""
  Target := ⟨"db-missing", "ns1"⟩

end backuphandler

/-! ## `pkg/backuprestore/status.go` -/

namespace backuprestore

namespace apiextensions

/-- Constant `apiextensions.ConditionTrue` (a `ConditionStatus`, which is a string). -/
def ConditionTrue : String := "True"

/-- Constant `apiextensions.ConditionFalse`. -/
def ConditionFalse : String := "False"

/-- Constant `apiextensions.ConditionUnknown`. -/
def ConditionUnknown : String := "Unknown"

/-- Go type `apiextensions.CustomResourceDefinitionCondition`; `Type_` is the Go field
`Type`, `LastTransitionTime` a point in time in nanoseconds. -/
structure CustomResourceDefinitionCondition where
  Type_ : String
  Status : String
  LastTransitionTime : Int
  Reason : String
  Message : String
  deriving DecidableEq, Repr

end apiextensions

/-- Go interface `aerospikev1alpha2.BackupRestoreObject` as used by status.go: each
field holds what the getter of that name returns. -/
structure BackupRestoreObject where
  GetName : String
  GetNamespace : String
  GetOperationType : String
  GetConditions : List apiextensions.CustomResourceDefinitionCondition
  GetFinishedConditionType : String
  GetFailedConditionType : String
  deriving DecidableEq, Repr

/-- The `for _, c := range obj.GetConditions()` loop of `isFailedOrFinished`
(status.go:68-73): return true at the first condition that satisfies the test, false
when the list is exhausted. -/
def isFailedOrFinishedLoop (obj : BackupRestoreObject) :
    List apiextensions.CustomResourceDefinitionCondition → Bool
  | [] => false
  | c :: rest =>
    if (c.Type_ == obj.GetFinishedConditionType || c.Type_ == obj.GetFailedConditionType)
        && c.Status == apiextensions.ConditionTrue then
      true
    else
      isFailedOrFinishedLoop obj rest

/-- Method `AerospikeBackupRestoreHandler.isFailedOrFinished` (status.go:67-74). -/
def isFailedOrFinished (obj : BackupRestoreObject) : Bool :=
  isFailedOrFinishedLoop obj obj.GetConditions

/-- A restore request with the given conditions. -/
def exampleRestore (conds : List apiextensions.CustomResourceDefinitionCondition) :
    BackupRestoreObject where
  GetName := "restore-1"
  GetNamespace := "default"
  GetOperationType := "restore"
  GetConditions := conds
  GetFinishedConditionType := "RestoreFinished"
  GetFailedConditionType := "RestoreFailed"

namespace common

/-- Modelled from the spec: `pkg/apis/aerospike/common` is not among the sources; the
operation kind of a backup request. -/
def OperationTypeBackup : String := "backup"

/-- Modelled from the spec: `pkg/apis/aerospike/common` is not among the sources; the
operation kind of a restore request. -/
def OperationTypeRestore : String := "restore"

end common

namespace types

/-- Constant `types.MergePatchType` of `k8s.io/apimachinery/pkg/types`. -/
def MergePatchType : String := "application/merge-patch+json"

end types

/-- The two patch targets of `appendCondition`: the resource type handed to
`CreateTwoWayMergePatch` and the client the patch is sent through. -/
inductive PatchTarget where
  | AerospikeNamespaceBackup
  | AerospikeNamespaceRestore
  deriving DecidableEq, Repr

/-- Method `SetConditions` of the interface `aerospikev1alpha2.BackupRestoreObject`:
replace the condition list of the object. -/
def BackupRestoreObject.SetConditions (obj : BackupRestoreObject)
    (conds : List apiextensions.CustomResourceDefinitionCondition) : BackupRestoreObject :=
  { obj with GetConditions := conds }

/-- The receiver `h *AerospikeBackupRestoreHandler` and the library calls of
`appendCondition`: `Patch` is the `Patch` method of the typed client of the target,
acting on the state `σ` of the resource API; `Marshal` is `json.Marshal` on the object,
`CreateTwoWayMergePatch` is `strategicpatch.CreateTwoWayMergePatch`, and `Now` is
the value `time.Now()` yields during the call. -/
structure AerospikeBackupRestoreHandler (σ : Type) where
  Patch : PatchTarget → String → String → String → String → σ → Option GoError × σ
  Marshal : BackupRestoreObject → Except GoError String
  CreateTwoWayMergePatch : String → String → PatchTarget → Except GoError String
  Now : Int

/-- Calls of `appendCondition` on the resource API, in program order:
`Patch(target, namespace, name, patchType, patchBytes)`. -/
inductive PatchCall where
  | Patch (target : PatchTarget) (ns : String) (name : String) (patchType : String)
      (patchBytes : String)
  deriving DecidableEq, Repr

/-- Outcome of `appendCondition`: the returned error, the object as the call leaves
it (the method mutates it through `SetConditions`), the state of the resource API and
the patches sent. -/
structure AppendResult (σ : Type) where
  err : Option GoError
  obj : BackupRestoreObject
  state : σ
  trace : List PatchCall

/-- The `case` bodies of the switch of `appendCondition` (status.go:47-55 and 56-64):
compute the two-way merge patch for the target and send it. -/
def sendPatch {σ : Type} (h : AerospikeBackupRestoreHandler σ) (target : PatchTarget)
    (oldBytes newBytes : String) (obj : BackupRestoreObject) (s : σ) : AppendResult σ :=
  match h.CreateTwoWayMergePatch oldBytes newBytes target with
  | .error err => ⟨some err, obj, s, []⟩
  | .ok patchBytes =>
    match h.Patch target obj.GetNamespace obj.GetName types.MergePatchType patchBytes s with
    | (some err, s1) =>
      ⟨some err, obj, s1,
        [PatchCall.Patch target obj.GetNamespace obj.GetName types.MergePatchType patchBytes]⟩
    | (none, s1) =>
      ⟨none, obj, s1,
        [PatchCall.Patch target obj.GetNamespace obj.GetName types.MergePatchType patchBytes]⟩

/-- Method `AerospikeBackupRestoreHandler.appendCondition` (status.go:32-65). -/
def appendCondition {σ : Type} (h : AerospikeBackupRestoreHandler σ)
    (obj : BackupRestoreObject) (condition : apiextensions.CustomResourceDefinitionCondition)
    (s : σ) : AppendResult σ :=
  match h.Marshal obj with
  | .error err => ⟨some err, obj, s, []⟩
  | .ok oldBytes =>
    let condition1 := { condition with LastTransitionTime := h.Now }
    let obj1 := obj.SetConditions (obj.GetConditions ++ [condition1])
    match h.Marshal obj1 with
    | .error err => ⟨some err, obj1, s, []⟩
    | .ok newBytes =>
      if obj1.GetOperationType = common.OperationTypeBackup then
        sendPatch h PatchTarget.AerospikeNamespaceBackup oldBytes newBytes obj1 s
      else if obj1.GetOperationType = common.OperationTypeRestore then
        sendPatch h PatchTarget.AerospikeNamespaceRestore oldBytes newBytes obj1 s
      else
        ⟨none, obj1, s, []⟩

/-- A handler on the state "patches applied so far" whose serialisation lists the
types of the conditions and whose patch is the new serialisation. -/
def exampleStatusHandler (now : Int) : AerospikeBackupRestoreHandler (List String) where
  Patch := fun _ _ _ _ patchBytes s => (none, s ++ [patchBytes])
  Marshal := fun obj => .ok (String.intercalate "," (obj.GetConditions.map (fun c => c.Type_)))
  CreateTwoWayMergePatch := fun _ newBytes _ => .ok newBytes
  Now := now

end backuprestore

/-! ## `pkg/reconciler/podutils.go` -/

namespace time

/-- Constant `time.Hour`, a `time.Duration` counted in nanoseconds. -/
def Hour : Int := 60 * (60 * (1000 * (1000 * 1000)))

end time

namespace strings

/-- Go `strings.TrimPrefix` on the characters of the strings: the first argument
without the leading second argument, or unchanged when it does not start with it. -/
def TrimPrefixChars (s pre : List Char) : List Char :=
  if pre.isPrefixOf s then s.drop pre.length else s

/-- Go `strings.TrimPrefix`. -/
def TrimPrefix (s pre : String) : String :=
  ⟨TrimPrefixChars s.data pre.data⟩

end strings

namespace strconv

/-- Width of Go `int` on the 64-bit platforms the operator is built for. -/
def intSize : Nat := 64

/-- Digit loop of `strconv.Atoi` / `ParseUint` in base 10: every character must be
one of `0`..`9`; the value is accumulated from the left. -/
def parseDigits : List Char → Nat → Option Nat
  | [], acc => some acc
  | c :: rest, acc =>
    if 48 ≤ c.toNat ∧ c.toNat ≤ 57 then parseDigits rest (acc * 10 + (c.toNat - 48))
    else none

/-- Go `strconv.Atoi` on the characters of a string: an optional sign `+` or `-`
followed by at least one decimal digit and nothing else; `none` on a syntax error
(empty input, no digit, a character that is not a digit) and on a range error (value
outside `[-2^(intSize-1), 2^(intSize-1) - 1]`). -/
def AtoiChars (s : List Char) : Option Int :=
  match s with
  | [] => none
  | c :: rest =>
    if c = '+' then
      if rest = [] then none
      else
        match parseDigits rest 0 with
        | some v => if v < 2 ^ (intSize - 1) then some (Int.ofNat v) else none
        | none => none
    else if c = '-' then
      if rest = [] then none
      else
        match parseDigits rest 0 with
        | some v => if v ≤ 2 ^ (intSize - 1) then some (- Int.ofNat v) else none
        | none => none
    else
      match parseDigits (c :: rest) 0 with
      | some v => if v < 2 ^ (intSize - 1) then some (Int.ofNat v) else none
      | none => none

/-- Go `strconv.Atoi`. -/
def Atoi (s : String) : Option Int :=
  AtoiChars s.data

end strconv

namespace reconciler

/-- Go type `v1.Pod`, with the fields podutils.go reads: `Name`, the label map
`ObjectMeta.Labels` (as a list of key/value pairs) and `Status.PodIP`. -/
structure Pod where
  Name : String
  Labels : List (String × String)
  PodIP : String
  deriving DecidableEq, Repr

/-- Go map read `labels[key]`: the value stored under the key, the empty string when
the key is absent. -/
def labelValue (labels : List (String × String)) (key : String) : String :=
  (labels.lookup key).getD ""

/-- Constant `migrationTimeout` (podutils.go:35-38). -/
def migrationTimeout : Int := 1 * time.Hour

/-- Function `podIndex` (podutils.go:56-62); `LabelClusterKey` is the constant
`selectors.LabelClusterKey`, whose declaration is not among the sources. -/
def podIndex (LabelClusterKey : String) (pod : Pod) : Int :=
  match strconv.Atoi
      (strings.TrimPrefix pod.Name (labelValue pod.Labels LabelClusterKey ++ "-")) with
  | some res => res
  | none => -1

/-- Method `byIndex.Len` (podutils.go:42-44). -/
def byIndex.Len (p : List Pod) : Nat :=
  p.length

/-- Method `byIndex.Swap` (podutils.go:46-48), on indices within the slice: the
tuple assignment `p[i], p[j] = p[j], p[i]`. -/
def byIndex.Swap (p : List Pod) (i j : Fin p.length) : List Pod :=
  (p.set i (p.get j)).set j (p.get i)

/-- Method `byIndex.Less` (podutils.go:50-54), on indices within the slice. -/
def byIndex.Less (LabelClusterKey : String) (p : List Pod) (i j : Fin p.length) : Bool :=
  let idx1 := podIndex LabelClusterKey (p.get i)
  let idx2 := podIndex LabelClusterKey (p.get j)
  decide (idx1 < idx2)

/-- Postcondition of Go `sort.Sort(byIndex(q))` on the slice it leaves behind: no
later element is `Less` than an earlier one. -/
def byIndex.IsSorted (LabelClusterKey : String) (q : List Pod) : Prop :=
  ∀ i j : Fin q.length, i < j → byIndex.Less LabelClusterKey q j i = false

/-- Name of the member with ordinal `i` of a cluster: the cluster name, a dash and the
decimal representation of `i`. -/
def memberName (cluster : String) (i : Nat) : String :=
  cluster ++ "-" ++ Nat.repr i

/-- Go type `as.Host` of the data-layer client. -/
structure Host where
  Name : String
  Port : Nat
  deriving DecidableEq, Repr

/-- Go type `as.Node` as used by podutils.go: `GetHost` and the answer of
`WaitUntillMigrationIsFinished` for a given timeout (`nil` when migrations finished
within the timeout, an error otherwise). -/
structure Node where
  GetHost : Host
  WaitUntillMigrationIsFinished : Int → Option GoError

/-- Go type `as.Client`: the nodes `GetNodes` returns. -/
structure Client where
  GetNodes : List Node

/-- Calls made on the data-layer client library, in program order. -/
inductive ClientCall where
  | NewClient (host : String) (port : Nat) (connected : Bool)
  | GetNodes
  | WaitUntillMigrationIsFinished (node : Host) (timeout : Int)
  | Close
  deriving DecidableEq, Repr

/-- The `for _, node := range client.GetNodes()` loop of `waitPodReadyToShutdown`
(podutils.go:74-83): at the first node whose host name is the pod address, return the
result of its migration wait; return `nil` when the nodes are exhausted. -/
def waitLoop (podIP : String) : List Node → Option GoError × List ClientCall
  | [] => (none, [])
  | node :: rest =>
    if node.GetHost.Name = podIP then
      (node.WaitUntillMigrationIsFinished migrationTimeout,
        [ClientCall.WaitUntillMigrationIsFinished node.GetHost migrationTimeout])
    else
      waitLoop podIP rest

/-- Function `waitPodReadyToShutdown` (podutils.go:68-84).  `NewClient` is
`as.NewClient` of the data-layer client library and `servicePort` the package constant
of that name; the deferred `client.Close()` runs last on every path that opened the
client. -/
def waitPodReadyToShutdown (NewClient : String → Nat → Except GoError Client)
    (servicePort : Nat) (pod : Pod) : Option GoError × List ClientCall :=
  match NewClient pod.PodIP servicePort with
  | .error err => (some err, [ClientCall.NewClient pod.PodIP servicePort false])
  | .ok client =>
    let r := waitLoop pod.PodIP client.GetNodes
    (r.1, [ClientCall.NewClient pod.PodIP servicePort true, ClientCall.GetNodes]
            ++ r.2 ++ [ClientCall.Close])

/-- Whether a call is a migration wait. -/
def ClientCall.isWait : ClientCall → Bool
  | .WaitUntillMigrationIsFinished _ _ => true
  | _ => false

/-- Number of connections a trace leaves open: clients opened minus clients closed. -/
def openConnections (trace : List ClientCall) : Int :=
  (trace.filter (fun c => match c with
    | .NewClient _ _ true => true
    | _ => false)).length
  - (trace.count ClientCall.Close : Nat)

/-- A data layer that answers every connection with the given nodes. -/
def exampleNewClient (nodes : List Node) : String → Nat → Except GoError Client :=
  fun _ _ => .ok ⟨nodes⟩

/-- A data layer that refuses every connection. -/
def exampleNoClient : String → Nat → Except GoError Client :=
  fun _ _ => .error (GoError.other "connection refused")

/-- A node at the given address whose migration wait gives the given answer. -/
def exampleNode (address : String) (answer : Option GoError) : Node where
  GetHost := ⟨address, 3000⟩
  WaitUntillMigrationIsFinished := fun _ => answer

/-- A pod of cluster `cluster` with the given name and the address `10.0.0.7`. -/
def examplePod (name : String) : Pod where
  Name := name
  Labels := [("app", "aerospike"), ("cluster", "cluster")]
  PodIP := "10.0.0.7"

end reconciler

/-! ## Go package `sort`, driven by the methods of `byIndex` -/

namespace sort

open reconciler

/-- The call `data.Less(i, j)` through `sort.Interface` for `data` a `byIndex`, with
Go `int` indices; an index outside the slice panics in Go (here: false), which the
sorting procedure below never produces. -/
def dataLess (LabelClusterKey : String) (data : List Pod) (i j : Nat) : Bool :=
  if h : i < data.length ∧ j < data.length then
    byIndex.Less LabelClusterKey data ⟨i, h.1⟩ ⟨j, h.2⟩
  else false

/-- The call `data.Swap(i, j)` through `sort.Interface` for `data` a `byIndex`, with
Go `int` indices; an index outside the slice panics in Go (here: no change), which
the sorting procedure below never produces. -/
def dataSwap (data : List Pod) (i j : Nat) : List Pod :=
  if h : i < data.length ∧ j < data.length then byIndex.Swap data ⟨i, h.1⟩ ⟨j, h.2⟩
  else data

/-- Inner loop of Go `insertionSort(data, a, b)`:
`for j := i; j > a && data.Less(j, j-1); j-- { data.Swap(j, j-1) }`, started at `j`. -/
def insertionSortInner (LabelClusterKey : String) (a : Nat) : Nat → List Pod → List Pod
  | 0, data => data
  | j + 1, data =>
    if j + 1 > a ∧ dataLess LabelClusterKey data (j + 1) j = true then
      insertionSortInner LabelClusterKey a j (dataSwap data (j + 1) j)
    else data

/-- Go `insertionSort(data, a, b)` of package `sort`: the inner loop for
`i = a+1, .., b-1`. -/
def insertionSort (LabelClusterKey : String) (data : List Pod) (a b : Nat) : List Pod :=
  (List.range' (a + 1) (b - (a + 1))).foldl
    (fun d i => insertionSortInner LabelClusterKey a i d) data

/-- Go `sort.Sort(byIndex(data))` (`Sort_` as `Sort` is a reserved word here): read
`n := data.Len()` and sort the range `[0, n)` with the methods `Less` and `Swap` of
`byIndex`.  Of the library's procedures the insertion sort is the one embedded; the
library's `Sort` (a quicksort that ends in this insertion sort on short ranges) makes
other calls in another order and may order pods of equal index differently; on pods
with pairwise distinct indices every procedure that leaves a sorted permutation leaves
the same slice. -/
def Sort_ (LabelClusterKey : String) (data : List Pod) : List Pod :=
  let n := byIndex.Len data
  insertionSort LabelClusterKey data 0 n

end sort

/-! ## `pkg/controller/restore.go` -/

namespace strings

/-- Go `strings.Split` for a one-character separator, on the characters of the
string: the pieces between the separators, in order (one piece, possibly empty, when
the separator does not occur). -/
def SplitChars (sep : Char) : List Char → List (List Char)
  | [] => [[]]
  | c :: rest =>
    if c = sep then [] :: SplitChars sep rest
    else
      match SplitChars sep rest with
      | [] => [[c]]
      | piece :: pieces => (c :: piece) :: pieces

/-- Go `strings.Split` for a one-character separator. -/
def Split (s : String) (sep : Char) : List String :=
  (SplitChars sep s.data).map String.mk

end strings

namespace cache

/-- Function `cache.SplitMetaNamespaceKey` of `k8s.io/client-go/tools/cache`: a key
without slash is a name in the empty namespace, a key with one slash is
namespace/name, any other key is an error, whose text holds the key between double
quotes (the `%q` of the library, for a key without quote, backslash or control
character). -/
def SplitMetaNamespaceKey (key : String) : Except GoError (String × String) :=
  match strings.Split key '/' with
  | [name] => .ok ("", name)
  | [ns, name] => .ok (ns, name)
  | _ => .error (GoError.other ("unexpected key format: \"" ++ key ++ "\""))

end cache

namespace controller

/-- Go type `aerospikev1alpha1.AerospikeNamespaceRestore`, with the fields the handler
reads; `ObjectMeta` and `Storage` are carried as their serialised form. -/
structure AerospikeNamespaceRestore where
  Name : String
  Namespace : String
  UID : String
  ObjectMeta : String
  Storage : String
  Target : backuphandler.TargetNamespace
  deriving DecidableEq, Repr

/-- Method `DeepCopy` of the restore object: a fresh object with the same content. -/
def AerospikeNamespaceRestore.DeepCopy (obj : AerospikeNamespaceRestore) :
    AerospikeNamespaceRestore :=
  { Name := obj.Name, Namespace := obj.Namespace, UID := obj.UID,
    ObjectMeta := obj.ObjectMeta, Storage := obj.Storage, Target := obj.Target }

/-- The receiver `c *AerospikeNamespaceRestoreController` as seen by
`processQueueItem`: `Get` is the lookup
`c.aerospikeNamespaceRestoreLister.AerospikeNamespaceRestores(namespace).Get(name)` in
the cache (a read of the state `σ`), `Handle` is `c.handler.Handle` (handler.go:79-108)
on a restore object. -/
structure AerospikeNamespaceRestoreController (σ : Type) where
  Get : String → String → σ → Except GoError AerospikeNamespaceRestore
  Handle : AerospikeNamespaceRestore → σ → Option GoError × σ

/-- Calls of `processQueueItem`, in program order: `runtime.HandleError` with the
message format and its argument, the cache lookup, the handler. -/
inductive QueueCall where
  | HandleError (messageFmt : String) (arg : String)
  | Get (ns : String) (name : String)
  | Handle (obj : AerospikeNamespaceRestore)
  deriving DecidableEq, Repr

/-- Outcome of `processQueueItem`: the returned error, the state and the calls. -/
structure QueueResult (σ : Type) where
  err : Option GoError
  state : σ
  trace : List QueueCall

/-- Method `AerospikeNamespaceRestoreController.processQueueItem`
(restore.go:83-110). -/
def processQueueItem {σ : Type} (c : AerospikeNamespaceRestoreController σ) (key : String)
    (s : σ) : QueueResult σ :=
  match cache.SplitMetaNamespaceKey key with
  | .error _ =>
    ⟨none, s, [QueueCall.HandleError "invalid resource key: %s" key]⟩
  | .ok (ns, name) =>
    match c.Get ns name s with
    | .error err =>
      if errors.IsNotFound err then
        ⟨none, s, [QueueCall.Get ns name,
          QueueCall.HandleError
            "aerospikenamespacerestore \x27%s\x27 in work queue no longer exists" key]⟩
      else
        ⟨some err, s, [QueueCall.Get ns name]⟩
    | .ok aerospikeNamespaceRestore =>
      match c.Handle aerospikeNamespaceRestore.DeepCopy s with
      | (some err, s1) =>
        ⟨some err, s1, [QueueCall.Get ns name,
          QueueCall.Handle aerospikeNamespaceRestore.DeepCopy]⟩
      | (none, s1) =>
        ⟨none, s1, [QueueCall.Get ns name,
          QueueCall.Handle aerospikeNamespaceRestore.DeepCopy]⟩

/-- Whether a call is an invocation of the handler. -/
def QueueCall.isHandle : QueueCall → Bool
  | .Handle _ => true
  | _ => false

/-- The restore object `default/restore-1`. -/
def exampleRestoreObject : AerospikeNamespaceRestore where
  Name := "restore-1"
  Namespace := "default"
  UID := "uid-1"
  ObjectMeta := ""
  Storage := ""
  Target := ⟨"db", "ns1"⟩

/-- A controller on the state "number of handler runs": its cache holds
`default/restore-1` only, the lookup in the namespace `broken` fails with a
server error, and its handler returns the given answer. -/
def exampleController (answer : Option GoError) : AerospikeNamespaceRestoreController Nat where
  Get := fun ns name _ =>
    if ns = "broken" then .error (GoError.apiStatus "InternalError" "cache unavailable")
    else if ns = "default" ∧ name = "restore-1" then .ok exampleRestoreObject
    else .error (GoError.apiStatus "NotFound" name)
  Handle := fun _ s => (answer, s + 1)

end controller

/-! ## Theorems: `handle` -/

namespace backuphandler

/-- Outcome of a pass on a request that is already terminal. -/
theorem pass_of_terminal {σ : Type} (h : AerospikeBackupsHandler σ)
    (obj : BackupRestoreObject) (s : σ)
    (h0 : (h.operationAlreadyPerformed obj s).1 = true) :
    pass h obj s = (none, ⟨stateAtJobCheck h obj s, [Call.operationAlreadyPerformed]⟩) := by
  simp [pass, handle, invoke, stateAtJobCheck, h0]

/-- Outcome of a pass whose job-exists check fails. -/
theorem pass_of_job_error {σ : Type} (h : AerospikeBackupsHandler σ)
    (obj : BackupRestoreObject) (s : σ) (e : GoError)
    (h0 : (h.operationAlreadyPerformed obj s).1 = false)
    (h1 : (h.ensureJobDoesNotExist obj (stateAtJobCheck h obj s)).1 = some e) :
    pass h obj s = (some e, ⟨stateAtTargetCheck h obj s,
      [Call.operationAlreadyPerformed, Call.ensureJobDoesNotExist]⟩) := by
  simp only [stateAtJobCheck] at h1
  simp [pass, handle, invoke, stateAtTargetCheck, stateAtJobCheck, h0, h1]

/-- Outcome of a pass whose target validation fails. -/
theorem pass_of_target_error {σ : Type} (h : AerospikeBackupsHandler σ)
    (obj : BackupRestoreObject) (s : σ) (e : GoError)
    (h0 : (h.operationAlreadyPerformed obj s).1 = false)
    (h1 : (h.ensureJobDoesNotExist obj (stateAtJobCheck h obj s)).1 = none)
    (h2 : (h.ensureClusterExists obj (stateAtTargetCheck h obj s)).1 = some e) :
    pass h obj s = (some e, ⟨stateAtSecretCheck h obj s,
      [Call.operationAlreadyPerformed, Call.ensureJobDoesNotExist,
        Call.ensureClusterExists]
      ++ (if errors.IsNotFound e then
            [Call.Eventf obj.Obj v1.EventTypeWarning events.ReasonInvalidTarget
              "cluster %s does not exist" [obj.Target.Cluster]]
          else [])
      ++ (if e = aerospikeErrors.NamespaceNotExists then
            [Call.Eventf obj.Obj v1.EventTypeWarning events.ReasonInvalidTarget
              "cluster %s does not contain a namespace named %s"
              [obj.Target.Cluster, obj.Target.Namespace]]
          else [])⟩) := by
  simp only [stateAtTargetCheck, stateAtJobCheck] at h1 h2
  by_cases c2 : e = aerospikeErrors.NamespaceNotExists
  · subst c2
    simp [pass, handle, invoke, Eventf, stateAtSecretCheck, stateAtTargetCheck,
      stateAtJobCheck, h0, h1, h2, errors.IsNotFound, aerospikeErrors.NamespaceNotExists]
  · by_cases c1 : errors.IsNotFound e = true <;>
      simp [pass, handle, invoke, Eventf, stateAtSecretCheck, stateAtTargetCheck,
        stateAtJobCheck, h0, h1, h2, c1, c2]

/-- Outcome of a pass whose secret validation fails. -/
theorem pass_of_secret_error {σ : Type} (h : AerospikeBackupsHandler σ)
    (obj : BackupRestoreObject) (s : σ) (e : GoError)
    (h0 : (h.operationAlreadyPerformed obj s).1 = false)
    (h1 : (h.ensureJobDoesNotExist obj (stateAtJobCheck h obj s)).1 = none)
    (h2 : (h.ensureClusterExists obj (stateAtTargetCheck h obj s)).1 = none)
    (h3 : (h.ensureSecretExists obj (stateAtSecretCheck h obj s)).1 = some e) :
    pass h obj s = (some e, ⟨stateAtCreateJob h obj s,
      [Call.operationAlreadyPerformed, Call.ensureJobDoesNotExist,
        Call.ensureClusterExists, Call.ensureSecretExists]
      ++ (if errors.IsNotFound e then
            [Call.Eventf obj.Obj v1.EventTypeWarning events.ReasonInvalidSecret
              "specified secret does not exist" []]
          else [])
      ++ (if e = aerospikeErrors.InvalidSecretFileName then
            [Call.Eventf obj.Obj v1.EventTypeWarning events.ReasonInvalidSecret
              "secret does not contain expected file (Expected \"%s\")"
              [h.secretFileName]]
          else [])⟩) := by
  simp only [stateAtSecretCheck, stateAtTargetCheck, stateAtJobCheck] at h1 h2 h3
  by_cases c2 : e = aerospikeErrors.InvalidSecretFileName
  · subst c2
    simp [pass, handle, invoke, Eventf, stateAtCreateJob, stateAtSecretCheck,
      stateAtTargetCheck, stateAtJobCheck, h0, h1, h2, h3, errors.IsNotFound,
      aerospikeErrors.InvalidSecretFileName]
  · by_cases c1 : errors.IsNotFound e = true <;>
      simp [pass, handle, invoke, Eventf, stateAtCreateJob, stateAtSecretCheck,
        stateAtTargetCheck, stateAtJobCheck, h0, h1, h2, h3, c1, c2]

/-- Outcome of a pass whose Job creation fails. -/
theorem pass_of_create_error {σ : Type} (h : AerospikeBackupsHandler σ)
    (obj : BackupRestoreObject) (s : σ) (e : GoError)
    (h0 : (h.operationAlreadyPerformed obj s).1 = false)
    (h1 : (h.ensureJobDoesNotExist obj (stateAtJobCheck h obj s)).1 = none)
    (h2 : (h.ensureClusterExists obj (stateAtTargetCheck h obj s)).1 = none)
    (h3 : (h.ensureSecretExists obj (stateAtSecretCheck h obj s)).1 = none)
    (h4 : (h.createJob obj (stateAtCreateJob h obj s)).1 = some e) :
    pass h obj s = (some e, ⟨stateAtCompletion h obj s,
      [Call.operationAlreadyPerformed, Call.ensureJobDoesNotExist,
        Call.ensureClusterExists, Call.ensureSecretExists, Call.createJob]⟩) := by
  simp only [stateAtCreateJob, stateAtSecretCheck, stateAtTargetCheck, stateAtJobCheck]
    at h1 h2 h3 h4
  simp [pass, handle, invoke, stateAtCompletion, stateAtCreateJob, stateAtSecretCheck,
    stateAtTargetCheck, stateAtJobCheck, h0, h1, h2, h3, h4]

/-- Outcome of a pass that creates its Job: the result is the result of the append. -/
theorem pass_of_job_created {σ : Type} (h : AerospikeBackupsHandler σ)
    (obj : BackupRestoreObject) (s : σ)
    (h0 : (h.operationAlreadyPerformed obj s).1 = false)
    (h1 : (h.ensureJobDoesNotExist obj (stateAtJobCheck h obj s)).1 = none)
    (h2 : (h.ensureClusterExists obj (stateAtTargetCheck h obj s)).1 = none)
    (h3 : (h.ensureSecretExists obj (stateAtSecretCheck h obj s)).1 = none)
    (h4 : (h.createJob obj (stateAtCreateJob h obj s)).1 = none) :
    pass h obj s = ((h.addCompletedCondition obj (stateAtCompletion h obj s)).1,
      ⟨(h.addCompletedCondition obj (stateAtCompletion h obj s)).2,
      [Call.operationAlreadyPerformed, Call.ensureJobDoesNotExist,
        Call.ensureClusterExists, Call.ensureSecretExists, Call.createJob,
        Call.addCompletedCondition]⟩) := by
  simp only [stateAtCreateJob, stateAtSecretCheck, stateAtTargetCheck, stateAtJobCheck]
    at h1 h2 h3 h4
  cases h5 : (h.addCompletedCondition obj (stateAtCompletion h obj s)).1 <;>
    simp only [stateAtCompletion, stateAtCreateJob, stateAtSecretCheck, stateAtTargetCheck,
      stateAtJobCheck] at h5 <;>
    simp [pass, handle, invoke, stateAtCompletion, stateAtCreateJob, stateAtSecretCheck,
      stateAtTargetCheck, stateAtJobCheck, h0, h1, h2, h3, h4, h5]

/-- C1: a pass of `handle` on a request whose terminal check
(`operationAlreadyPerformed`) answers true returns `nil`, and the terminal check is the
only call it makes: no job-exists check, no cluster or secret lookup, no event, no Job
creation, no condition append; the state is the one the terminal check left. -/
theorem handle_terminal_request_is_noop {σ : Type} (h : AerospikeBackupsHandler σ)
    (obj : BackupRestoreObject) (s : σ)
    (hdone : (h.operationAlreadyPerformed obj s).1 = true) :
    (pass h obj s).1 = none ∧
    (pass h obj s).2.trace = [Call.operationAlreadyPerformed] ∧
    (pass h obj s).2.api = (h.operationAlreadyPerformed obj s).2 ∧
    Call.ensureJobDoesNotExist ∉ (pass h obj s).2.trace ∧
    Call.ensureClusterExists ∉ (pass h obj s).2.trace ∧
    Call.ensureSecretExists ∉ (pass h obj s).2.trace ∧
    (pass h obj s).2.trace.filter Call.isEvent = [] ∧
    Call.createJob ∉ (pass h obj s).2.trace ∧
    Call.addCompletedCondition ∉ (pass h obj s).2.trace := by
  rw [pass_of_terminal h obj s hdone]
  simp [Call.isEvent, stateAtJobCheck]

/-- Witness of C1: a terminal restore request, with one Job already created. -/
theorem handle_terminal_request_is_noop_witness :
    (pass (exampleHandler true none none none none none) exampleObject 1).1 = none ∧
    (pass (exampleHandler true none none none none none) exampleObject 1).2.trace
      = [Call.operationAlreadyPerformed] ∧
    (pass (exampleHandler true none none none none none) exampleObject 1).2.api = 1 :=
  have w := handle_terminal_request_is_noop
    (exampleHandler true none none none none none) exampleObject 1 rfl
  ⟨w.1, w.2.1, w.2.2.1⟩

/-- C4: in one pass, `createJob` is reached only when the terminal check answered
false and the job-exists check, the target validation and the secret validation all
returned `nil`, and these four calls precede it in that order; when one of the three
checks fails the pass returns exactly that error, and the calls of the pass are the
ones up to the failing check (none of the later checks, no `createJob`, no
`addCompletedCondition`); `createJob` occurs at most once in the trace of a pass. -/
theorem handle_submits_job_only_after_checks {σ : Type} (h : AerospikeBackupsHandler σ)
    (obj : BackupRestoreObject) (s : σ) :
    (Call.createJob ∈ (pass h obj s).2.trace →
      (h.operationAlreadyPerformed obj s).1 = false ∧
      (h.ensureJobDoesNotExist obj (stateAtJobCheck h obj s)).1 = none ∧
      (h.ensureClusterExists obj (stateAtTargetCheck h obj s)).1 = none ∧
      (h.ensureSecretExists obj (stateAtSecretCheck h obj s)).1 = none ∧
      [Call.operationAlreadyPerformed, Call.ensureJobDoesNotExist, Call.ensureClusterExists,
        Call.ensureSecretExists, Call.createJob] <+: (pass h obj s).2.trace) ∧
    (∀ e : GoError,
      (h.operationAlreadyPerformed obj s).1 = false →
      (h.ensureJobDoesNotExist obj (stateAtJobCheck h obj s)).1 = some e →
      (pass h obj s).1 = some e ∧
      (pass h obj s).2.trace = [Call.operationAlreadyPerformed, Call.ensureJobDoesNotExist] ∧
      Call.createJob ∉ (pass h obj s).2.trace ∧
      Call.addCompletedCondition ∉ (pass h obj s).2.trace) ∧
    (∀ e : GoError,
      (h.operationAlreadyPerformed obj s).1 = false →
      (h.ensureJobDoesNotExist obj (stateAtJobCheck h obj s)).1 = none →
      (h.ensureClusterExists obj (stateAtTargetCheck h obj s)).1 = some e →
      (pass h obj s).1 = some e ∧
      (pass h obj s).2.trace.filter (fun c => !c.isEvent)
        = [Call.operationAlreadyPerformed, Call.ensureJobDoesNotExist,
            Call.ensureClusterExists] ∧
      Call.ensureSecretExists ∉ (pass h obj s).2.trace ∧
      Call.createJob ∉ (pass h obj s).2.trace ∧
      Call.addCompletedCondition ∉ (pass h obj s).2.trace) ∧
    (∀ e : GoError,
      (h.operationAlreadyPerformed obj s).1 = false →
      (h.ensureJobDoesNotExist obj (stateAtJobCheck h obj s)).1 = none →
      (h.ensureClusterExists obj (stateAtTargetCheck h obj s)).1 = none →
      (h.ensureSecretExists obj (stateAtSecretCheck h obj s)).1 = some e →
      (pass h obj s).1 = some e ∧
      (pass h obj s).2.trace.filter (fun c => !c.isEvent)
        = [Call.operationAlreadyPerformed, Call.ensureJobDoesNotExist,
            Call.ensureClusterExists, Call.ensureSecretExists] ∧
      Call.createJob ∉ (pass h obj s).2.trace ∧
      Call.addCompletedCondition ∉ (pass h obj s).2.trace) ∧
    (pass h obj s).2.trace.count Call.createJob ≤ 1 := by
  refine ⟨?_, ?_, ?_, ?_, ?_⟩
  · intro hmem
    cases h0 : (h.operationAlreadyPerformed obj s).1 with
    | true => rw [pass_of_terminal h obj s h0] at hmem; simp at hmem
    | false =>
      cases h1 : (h.ensureJobDoesNotExist obj (stateAtJobCheck h obj s)).1 with
      | some e => rw [pass_of_job_error h obj s e h0 h1] at hmem; simp at hmem
      | none =>
        cases h2 : (h.ensureClusterExists obj (stateAtTargetCheck h obj s)).1 with
        | some e =>
          rw [pass_of_target_error h obj s e h0 h1 h2] at hmem
          split_ifs at hmem <;> simp at hmem
        | none =>
          cases h3 : (h.ensureSecretExists obj (stateAtSecretCheck h obj s)).1 with
          | some e =>
            rw [pass_of_secret_error h obj s e h0 h1 h2 h3] at hmem
            split_ifs at hmem <;> simp at hmem
          | none =>
            refine ⟨rfl, rfl, rfl, rfl, ?_⟩
            cases h4 : (h.createJob obj (stateAtCreateJob h obj s)).1 with
            | some e =>
              rw [pass_of_create_error h obj s e h0 h1 h2 h3 h4]
            | none =>
              rw [pass_of_job_created h obj s h0 h1 h2 h3 h4]
              exact ⟨[Call.addCompletedCondition], rfl⟩
  · intro e h0 h1
    rw [pass_of_job_error h obj s e h0 h1]
    simp
  · intro e h0 h1 h2
    rw [pass_of_target_error h obj s e h0 h1 h2]
    split_ifs <;> simp [Call.isEvent]
  · intro e h0 h1 h2 h3
    rw [pass_of_secret_error h obj s e h0 h1 h2 h3]
    split_ifs <;> simp [Call.isEvent]
  · cases h0 : (h.operationAlreadyPerformed obj s).1 with
    | true => rw [pass_of_terminal h obj s h0]; simp
    | false =>
      cases h1 : (h.ensureJobDoesNotExist obj (stateAtJobCheck h obj s)).1 with
      | some e => rw [pass_of_job_error h obj s e h0 h1]; simp
      | none =>
        cases h2 : (h.ensureClusterExists obj (stateAtTargetCheck h obj s)).1 with
        | some e =>
          rw [pass_of_target_error h obj s e h0 h1 h2]
          split_ifs <;> simp
        | none =>
          cases h3 : (h.ensureSecretExists obj (stateAtSecretCheck h obj s)).1 with
          | some e =>
            rw [pass_of_secret_error h obj s e h0 h1 h2 h3]
            split_ifs <;> simp
          | none =>
            cases h4 : (h.createJob obj (stateAtCreateJob h obj s)).1 with
            | some e => rw [pass_of_create_error h obj s e h0 h1 h2 h3 h4]; simp
            | none => rw [pass_of_job_created h obj s h0 h1 h2 h3 h4]; simp

/-- Witness of C4: a pass whose target validation fails with a not-found error
returns that error after three helper calls, and one that passes all checks has the
five calls in order. -/
theorem handle_submits_job_only_after_checks_witness :
    ((pass (exampleHandler false none (some (GoError.apiStatus "NotFound" "db-missing"))
        none none none) exampleObject 0).1 = some (GoError.apiStatus "NotFound" "db-missing") ∧
      (pass (exampleHandler false none (some (GoError.apiStatus "NotFound" "db-missing"))
        none none none) exampleObject 0).2.trace.filter (fun c => !c.isEvent)
        = [Call.operationAlreadyPerformed, Call.ensureJobDoesNotExist,
            Call.ensureClusterExists]) ∧
    [Call.operationAlreadyPerformed, Call.ensureJobDoesNotExist, Call.ensureClusterExists,
      Call.ensureSecretExists, Call.createJob]
      <+: (pass (exampleHandler false none none none none none) exampleObject 0).2.trace :=
  ⟨⟨((handle_submits_job_only_after_checks
      (exampleHandler false none (some (GoError.apiStatus "NotFound" "db-missing"))
        none none none) exampleObject 0).2.2.1
      (GoError.apiStatus "NotFound" "db-missing") rfl rfl rfl).1,
    ((handle_submits_job_only_after_checks
      (exampleHandler false none (some (GoError.apiStatus "NotFound" "db-missing"))
        none none none) exampleObject 0).2.2.1
      (GoError.apiStatus "NotFound" "db-missing") rfl rfl rfl).2.1⟩,
   ((handle_submits_job_only_after_checks
      (exampleHandler false none none none none none) exampleObject 0).1
      (by decide)).2.2.2.2⟩

/-- C5: for a non-terminal request whose job-exists check, target validation and
secret validation all return `nil`, the pass calls `createJob` exactly once; when the
creation returns `nil` it calls `addCompletedCondition` exactly once, after the
creation, and returns the result of that call; when the creation fails it returns the
creation error and `addCompletedCondition` is not called. -/
theorem handle_creates_job_then_appends_condition {σ : Type}
    (h : AerospikeBackupsHandler σ) (obj : BackupRestoreObject) (s : σ)
    (h0 : (h.operationAlreadyPerformed obj s).1 = false)
    (h1 : (h.ensureJobDoesNotExist obj (stateAtJobCheck h obj s)).1 = none)
    (h2 : (h.ensureClusterExists obj (stateAtTargetCheck h obj s)).1 = none)
    (h3 : (h.ensureSecretExists obj (stateAtSecretCheck h obj s)).1 = none) :
    (pass h obj s).2.trace.count Call.createJob = 1 ∧
    ((h.createJob obj (stateAtCreateJob h obj s)).1 = none →
      (pass h obj s).2.trace.count Call.addCompletedCondition = 1 ∧
      (pass h obj s).2.trace
        = [Call.operationAlreadyPerformed, Call.ensureJobDoesNotExist,
            Call.ensureClusterExists, Call.ensureSecretExists, Call.createJob,
            Call.addCompletedCondition] ∧
      (pass h obj s).1 = (h.addCompletedCondition obj (stateAtCompletion h obj s)).1 ∧
      (pass h obj s).2.api = (h.addCompletedCondition obj (stateAtCompletion h obj s)).2) ∧
    (∀ e : GoError, (h.createJob obj (stateAtCreateJob h obj s)).1 = some e →
      (pass h obj s).1 = some e ∧
      Call.addCompletedCondition ∉ (pass h obj s).2.trace ∧
      (pass h obj s).2.api = stateAtCompletion h obj s) := by
  refine ⟨?_, ?_, ?_⟩
  · cases h4 : (h.createJob obj (stateAtCreateJob h obj s)).1 with
    | some e => rw [pass_of_create_error h obj s e h0 h1 h2 h3 h4]; simp
    | none => rw [pass_of_job_created h obj s h0 h1 h2 h3 h4]; simp
  · intro h4
    rw [pass_of_job_created h obj s h0 h1 h2 h3 h4]
    simp
  · intro e h4
    rw [pass_of_create_error h obj s e h0 h1 h2 h3 h4]
    simp

/-- Witness of C5: a valid request on a state with no Job yet; the pass creates one
Job, appends the condition and returns `nil`. -/
theorem handle_creates_job_then_appends_condition_witness :
    (pass (exampleHandler false none none none none none) exampleObject 0).2.trace.count
      Call.createJob = 1 ∧
    (pass (exampleHandler false none none none none none) exampleObject 0).2.trace.count
      Call.addCompletedCondition = 1 ∧
    (pass (exampleHandler false none none none none none) exampleObject 0).1 = none ∧
    (pass (exampleHandler false none none none none none) exampleObject 0).2.api = 1 :=
  ⟨(handle_creates_job_then_appends_condition
      (exampleHandler false none none none none none) exampleObject 0 rfl rfl rfl rfl).1,
   ((handle_creates_job_then_appends_condition
      (exampleHandler false none none none none none) exampleObject 0 rfl rfl rfl rfl).2.1
      rfl).1,
   ((handle_creates_job_then_appends_condition
      (exampleHandler false none none none none none) exampleObject 0 rfl rfl rfl rfl).2.1
      rfl).2.2.1,
   ((handle_creates_job_then_appends_condition
      (exampleHandler false none none none none none) exampleObject 0 rfl rfl rfl rfl).2.1
      rfl).2.2.2⟩

/-- C6: when the target validation of a pass fails with the error `e`, the pass
returns `e` unchanged; if `e` is a not-found error the events recorded in the pass are
exactly one Warning event with reason InvalidTarget on the request, whose message
names the target cluster; if `e` is `NamespaceNotExists` they are exactly one Warning
event with reason InvalidTarget whose message names the cluster and the namespace. -/
theorem handle_target_failure_reported_and_returned {σ : Type}
    (h : AerospikeBackupsHandler σ) (obj : BackupRestoreObject) (s : σ) (e : GoError)
    (h0 : (h.operationAlreadyPerformed obj s).1 = false)
    (h1 : (h.ensureJobDoesNotExist obj (stateAtJobCheck h obj s)).1 = none)
    (h2 : (h.ensureClusterExists obj (stateAtTargetCheck h obj s)).1 = some e) :
    (pass h obj s).1 = some e ∧
    (errors.IsNotFound e = true →
      (pass h obj s).2.trace.filter Call.isEvent
        = [Call.Eventf obj.Obj v1.EventTypeWarning events.ReasonInvalidTarget
            "cluster %s does not exist" [obj.Target.Cluster]]) ∧
    (e = aerospikeErrors.NamespaceNotExists →
      (pass h obj s).2.trace.filter Call.isEvent
        = [Call.Eventf obj.Obj v1.EventTypeWarning events.ReasonInvalidTarget
            "cluster %s does not contain a namespace named %s"
            [obj.Target.Cluster, obj.Target.Namespace]]) := by
  rw [pass_of_target_error h obj s e h0 h1 h2]
  refine ⟨rfl, ?_, ?_⟩
  · intro hnf
    have hne : e ≠ aerospikeErrors.NamespaceNotExists := by
      intro heq
      subst heq
      simp [errors.IsNotFound, aerospikeErrors.NamespaceNotExists] at hnf
    simp [hnf, hne, Call.isEvent]
  · intro heq
    subst heq
    simp [errors.IsNotFound, aerospikeErrors.NamespaceNotExists, Call.isEvent]

/-- Witness of C6: the target cluster `db-missing` does not exist. -/
theorem handle_target_failure_reported_and_returned_witness :
    (pass (exampleHandler false none (some (GoError.apiStatus "NotFound" "db-missing"))
      none none none) exampleObject 0).1 = some (GoError.apiStatus "NotFound" "db-missing") ∧
    (pass (exampleHandler false none (some (GoError.apiStatus "NotFound" "db-missing"))
      none none none) exampleObject 0).2.trace.filter Call.isEvent
      = [Call.Eventf "default/restore-1" "Warning" "InvalidTarget"
          "cluster %s does not exist" ["db-missing"]] :=
  ⟨(handle_target_failure_reported_and_returned
      (exampleHandler false none (some (GoError.apiStatus "NotFound" "db-missing"))
        none none none) exampleObject 0 (GoError.apiStatus "NotFound" "db-missing")
      rfl rfl rfl).1,
   (handle_target_failure_reported_and_returned
      (exampleHandler false none (some (GoError.apiStatus "NotFound" "db-missing"))
        none none none) exampleObject 0 (GoError.apiStatus "NotFound" "db-missing")
      rfl rfl rfl).2.1 (by decide)⟩

/-- C7: when the secret validation of a pass fails with the error `e` (the target
validation having succeeded), the pass returns `e` unchanged; if `e` is a not-found
error the events recorded in the pass are exactly one Warning event with reason
InvalidSecret; if `e` is `InvalidSecretFileName` they are exactly one Warning event
with reason InvalidSecret whose message argument is `secretFileName`; in both cases
no event with reason InvalidTarget is recorded. -/
theorem handle_secret_failure_reported_and_returned {σ : Type}
    (h : AerospikeBackupsHandler σ) (obj : BackupRestoreObject) (s : σ) (e : GoError)
    (h0 : (h.operationAlreadyPerformed obj s).1 = false)
    (h1 : (h.ensureJobDoesNotExist obj (stateAtJobCheck h obj s)).1 = none)
    (h2 : (h.ensureClusterExists obj (stateAtTargetCheck h obj s)).1 = none)
    (h3 : (h.ensureSecretExists obj (stateAtSecretCheck h obj s)).1 = some e) :
    (pass h obj s).1 = some e ∧
    (errors.IsNotFound e = true →
      (pass h obj s).2.trace.filter Call.isEvent
        = [Call.Eventf obj.Obj v1.EventTypeWarning events.ReasonInvalidSecret
            "specified secret does not exist" []]) ∧
    (e = aerospikeErrors.InvalidSecretFileName →
      (pass h obj s).2.trace.filter Call.isEvent
        = [Call.Eventf obj.Obj v1.EventTypeWarning events.ReasonInvalidSecret
            "secret does not contain expected file (Expected \"%s\")"
            [h.secretFileName]]) ∧
    (pass h obj s).2.trace.filter (Call.isEventWithReason events.ReasonInvalidTarget) = [] := by
  rw [pass_of_secret_error h obj s e h0 h1 h2 h3]
  refine ⟨rfl, ?_, ?_, ?_⟩
  · intro hnf
    have hne : e ≠ aerospikeErrors.InvalidSecretFileName := by
      intro heq
      subst heq
      simp [errors.IsNotFound, aerospikeErrors.InvalidSecretFileName] at hnf
    simp [hnf, hne, Call.isEvent]
  · intro heq
    subst heq
    simp [errors.IsNotFound, aerospikeErrors.InvalidSecretFileName, Call.isEvent]
  · split_ifs <;>
      simp [Call.isEventWithReason, events.ReasonInvalidTarget, events.ReasonInvalidSecret]

/-- Witness of C7: the secret exists but lacks the file `key.json`. -/
theorem handle_secret_failure_reported_and_returned_witness :
    (pass (exampleHandler false none none (some aerospikeErrors.InvalidSecretFileName)
      none none) exampleObject 0).1 = some aerospikeErrors.InvalidSecretFileName ∧
    (pass (exampleHandler false none none (some aerospikeErrors.InvalidSecretFileName)
      none none) exampleObject 0).2.trace.filter Call.isEvent
      = [Call.Eventf "default/restore-1" "Warning" "InvalidSecret"
          "secret does not contain expected file (Expected \"%s\")" ["key.json"]] :=
  ⟨(handle_secret_failure_reported_and_returned
      (exampleHandler false none none (some aerospikeErrors.InvalidSecretFileName)
        none none) exampleObject 0 aerospikeErrors.InvalidSecretFileName
      rfl rfl rfl rfl).1,
   (handle_secret_failure_reported_and_returned
      (exampleHandler false none none (some aerospikeErrors.InvalidSecretFileName)
        none none) exampleObject 0 aerospikeErrors.InvalidSecretFileName
      rfl rfl rfl rfl).2.2.1 rfl⟩

end backuphandler

/-! ## Theorems: `isFailedOrFinished` -/

namespace backuprestore

/-- The loop answers true exactly when some condition of the list passes the test. -/
theorem isFailedOrFinishedLoop_iff (obj : BackupRestoreObject)
    (l : List apiextensions.CustomResourceDefinitionCondition) :
    isFailedOrFinishedLoop obj l = true ↔
      ∃ c ∈ l, c.Status = apiextensions.ConditionTrue ∧
        (c.Type_ = obj.GetFinishedConditionType ∨ c.Type_ = obj.GetFailedConditionType) := by
  induction l with
  | nil => simp [isFailedOrFinishedLoop]
  | cons c rest ih =>
    by_cases hc : (c.Type_ = obj.GetFinishedConditionType ∨ c.Type_ = obj.GetFailedConditionType)
        ∧ c.Status = apiextensions.ConditionTrue
    · have : isFailedOrFinishedLoop obj (c :: rest) = true := by
        simp [isFailedOrFinishedLoop, hc.1, hc.2]
      simp only [this, true_iff]
      exact ⟨c, List.mem_cons_self _ _, hc.2, hc.1⟩
    · have : isFailedOrFinishedLoop obj (c :: rest) = isFailedOrFinishedLoop obj rest := by
        simp only [isFailedOrFinishedLoop]
        rw [if_neg]
        simpa using hc
      rw [this, ih]
      constructor
      · rintro ⟨d, hd, h1, h2⟩
        exact ⟨d, List.mem_cons_of_mem _ hd, h1, h2⟩
      · rintro ⟨d, hd, h1, h2⟩
        rcases List.mem_cons.mp hd with rfl | hd
        · exact absurd ⟨h2, h1⟩ hc
        · exact ⟨d, hd, h1, h2⟩

/-- C2: `isFailedOrFinished` is true exactly when the condition list holds a
condition with status True whose type is the object's finished or failed condition
type; it is false for the empty list, and false when every condition of finished or
failed type has status False or Unknown. -/
theorem isFailedOrFinished_iff (obj : BackupRestoreObject) :
    (isFailedOrFinished obj = true ↔
      ∃ c ∈ obj.GetConditions, c.Status = apiextensions.ConditionTrue ∧
        (c.Type_ = obj.GetFinishedConditionType ∨ c.Type_ = obj.GetFailedConditionType)) ∧
    (obj.GetConditions = [] → isFailedOrFinished obj = false) ∧
    ((∀ c ∈ obj.GetConditions,
        (c.Type_ = obj.GetFinishedConditionType ∨ c.Type_ = obj.GetFailedConditionType) →
        (c.Status = apiextensions.ConditionFalse ∨ c.Status = apiextensions.ConditionUnknown)) →
      isFailedOrFinished obj = false) := by
  have key := isFailedOrFinishedLoop_iff obj obj.GetConditions
  refine ⟨key, ?_, ?_⟩
  · intro hnil
    simp [isFailedOrFinished, hnil, isFailedOrFinishedLoop]
  · intro hall
    cases hres : isFailedOrFinished obj with
    | false => rfl
    | true =>
      obtain ⟨c, hc, hs, ht⟩ := key.mp hres
      rcases hall c hc ht with h | h <;>
        · rw [hs] at h
          revert h
          decide

/-- Witness of C2: a restore request whose finished condition has status False and
whose failed condition has status Unknown is not terminal; one with a failed condition
of status True is. -/
theorem isFailedOrFinished_iff_witness :
    isFailedOrFinished (exampleRestore
      [⟨"RestoreFinished", "False", 0, "", ""⟩, ⟨"RestoreFailed", "Unknown", 0, "", ""⟩])
      = false ∧
    isFailedOrFinished (exampleRestore
      [⟨"RestoreStarted", "True", 0, "", ""⟩, ⟨"RestoreFailed", "True", 5, "", ""⟩])
      = true :=
  ⟨(isFailedOrFinished_iff (exampleRestore
      [⟨"RestoreFinished", "False", 0, "", ""⟩,
        ⟨"RestoreFailed", "Unknown", 0, "", ""⟩])).2.2 (by decide),
   (isFailedOrFinished_iff (exampleRestore
      [⟨"RestoreStarted", "True", 0, "", ""⟩, ⟨"RestoreFailed", "True", 5, "", ""⟩])).1.mpr
      ⟨⟨"RestoreFailed", "True", 5, "", ""⟩, by decide, by decide, Or.inr (by decide)⟩⟩

end backuprestore

/-! ## Theorems: `waitPodReadyToShutdown` -/

namespace reconciler

/-- The loop returns `nil` without any call when no node has the pod address. -/
theorem waitLoop_of_no_match (podIP : String) (nodes : List Node)
    (hno : ∀ n ∈ nodes, n.GetHost.Name ≠ podIP) : waitLoop podIP nodes = (none, []) := by
  induction nodes with
  | nil => rfl
  | cons n rest ih =>
    have h1 : n.GetHost.Name ≠ podIP := hno n (List.mem_cons_self _ _)
    simp only [waitLoop, if_neg h1]
    exact ih (fun m hm => hno m (List.mem_cons_of_mem _ hm))

/-- The loop waits on the first node that has the pod address, and on that node only. -/
theorem waitLoop_of_first_match (podIP : String) (nodes : List Node) (node : Node)
    (hfind : nodes.find? (fun n => decide (n.GetHost.Name = podIP)) = some node) :
    waitLoop podIP nodes = (node.WaitUntillMigrationIsFinished migrationTimeout,
      [ClientCall.WaitUntillMigrationIsFinished node.GetHost migrationTimeout]) := by
  induction nodes with
  | nil => simp at hfind
  | cons n rest ih =>
    by_cases h1 : n.GetHost.Name = podIP
    · simp [List.find?, h1] at hfind
      subst hfind
      simp [waitLoop, h1]
    · simp [List.find?, h1] at hfind
      simp only [waitLoop, if_neg h1]
      exact ih hfind

/-- Either no node has the pod address, or there is a first one. -/
theorem first_match_or_none (podIP : String) (nodes : List Node) :
    (∀ n ∈ nodes, n.GetHost.Name ≠ podIP) ∨
    ∃ node, nodes.find? (fun n => decide (n.GetHost.Name = podIP)) = some node ∧
      node ∈ nodes ∧ node.GetHost.Name = podIP := by
  cases hf : nodes.find? (fun n => decide (n.GetHost.Name = podIP)) with
  | none =>
    left
    intro n hn
    have := List.find?_eq_none.mp hf n hn
    simpa using this
  | some node =>
    right
    refine ⟨node, rfl, List.mem_of_find?_eq_some hf, ?_⟩
    have := List.find?_some hf
    simpa using this

/-- The constant `migrationTimeout` is one hour, in nanoseconds. -/
theorem migrationTimeout_eq : migrationTimeout = 3600000000000 := by
  decide

/-- C3 as stated fails: the data layer lists one node, at another address than the
pod and with migrations in flight; the function returns `nil` and has polled no
migration status at all. -/
theorem waitPodReadyToShutdown_nil_without_poll :
    (waitPodReadyToShutdown
      (exampleNewClient [exampleNode "10.0.0.8" (some (GoError.other "migrations in flight"))])
      3000 (examplePod "cluster-2")).1 = none ∧
    (waitPodReadyToShutdown
      (exampleNewClient [exampleNode "10.0.0.8" (some (GoError.other "migrations in flight"))])
      3000 (examplePod "cluster-2")).2.filter ClientCall.isWait = [] := by
  decide

/-- C3, amended: `waitPodReadyToShutdown` returns `nil` only if the client was opened
and either no listed node has the pod address as host name (then no migration status
is polled), or the first listed node with that host name was polled, with the
migration timeout, and that poll reported that no migrations are in flight. -/
theorem waitPodReadyToShutdown_nil_only_if
    (NewClient : String → Nat → Except GoError Client) (servicePort : Nat) (pod : Pod)
    (hnil : (waitPodReadyToShutdown NewClient servicePort pod).1 = none) :
    ∃ client, NewClient pod.PodIP servicePort = .ok client ∧
      (((∀ n ∈ client.GetNodes, n.GetHost.Name ≠ pod.PodIP) ∧
          (waitPodReadyToShutdown NewClient servicePort pod).2.filter ClientCall.isWait = [])
        ∨
        ∃ node, client.GetNodes.find? (fun n => decide (n.GetHost.Name = pod.PodIP)) = some node ∧
          node.GetHost.Name = pod.PodIP ∧
          node.WaitUntillMigrationIsFinished migrationTimeout = none ∧
          (waitPodReadyToShutdown NewClient servicePort pod).2.filter ClientCall.isWait
            = [ClientCall.WaitUntillMigrationIsFinished node.GetHost migrationTimeout]) := by
  cases hopen : NewClient pod.PodIP servicePort with
  | error err => simp [waitPodReadyToShutdown, hopen] at hnil
  | ok client =>
    refine ⟨client, rfl, ?_⟩
    rcases first_match_or_none pod.PodIP client.GetNodes with hno | ⟨node, hfind, _, hname⟩
    · left
      refine ⟨hno, ?_⟩
      simp [waitPodReadyToShutdown, hopen, waitLoop_of_no_match pod.PodIP client.GetNodes hno,
        ClientCall.isWait]
    · right
      refine ⟨node, hfind, hname, ?_, ?_⟩
      · simpa [waitPodReadyToShutdown, hopen,
          waitLoop_of_first_match pod.PodIP client.GetNodes node hfind] using hnil
      · simp [waitPodReadyToShutdown, hopen,
          waitLoop_of_first_match pod.PodIP client.GetNodes node hfind, ClientCall.isWait]

/-- Witness of C3, amended: the node at the pod address reports finished migrations. -/
theorem waitPodReadyToShutdown_nil_only_if_witness :
    ∃ client, exampleNewClient [exampleNode "10.0.0.8" none, exampleNode "10.0.0.7" none]
        (examplePod "cluster-2").PodIP 3000 = .ok client ∧
      (((∀ n ∈ client.GetNodes, n.GetHost.Name ≠ (examplePod "cluster-2").PodIP) ∧
          (waitPodReadyToShutdown
            (exampleNewClient [exampleNode "10.0.0.8" none, exampleNode "10.0.0.7" none])
            3000 (examplePod "cluster-2")).2.filter ClientCall.isWait = [])
        ∨
        ∃ node, client.GetNodes.find?
            (fun n => decide (n.GetHost.Name = (examplePod "cluster-2").PodIP)) = some node ∧
          node.GetHost.Name = (examplePod "cluster-2").PodIP ∧
          node.WaitUntillMigrationIsFinished migrationTimeout = none ∧
          (waitPodReadyToShutdown
            (exampleNewClient [exampleNode "10.0.0.8" none, exampleNode "10.0.0.7" none])
            3000 (examplePod "cluster-2")).2.filter ClientCall.isWait
            = [ClientCall.WaitUntillMigrationIsFinished node.GetHost migrationTimeout]) :=
  waitPodReadyToShutdown_nil_only_if
    (exampleNewClient [exampleNode "10.0.0.8" none, exampleNode "10.0.0.7" none])
    3000 (examplePod "cluster-2") (by decide)

/-- C8: when the client is opened and lists a node whose host name is the pod
address, the function returns exactly what the migration wait of that node (the first
such node listed) returns for a timeout of one hour, and that wait is the only one
made: an error of the wait is returned as the error of the function, and `nil` is
returned when the wait reports finished migrations. -/
theorem waitPodReadyToShutdown_returns_migration_wait
    (NewClient : String → Nat → Except GoError Client) (servicePort : Nat) (pod : Pod)
    (client : Client) (hopen : NewClient pod.PodIP servicePort = .ok client)
    (hlisted : ∃ n ∈ client.GetNodes, n.GetHost.Name = pod.PodIP) :
    ∃ node ∈ client.GetNodes,
      node.GetHost.Name = pod.PodIP ∧
      client.GetNodes.find? (fun n => decide (n.GetHost.Name = pod.PodIP)) = some node ∧
      (waitPodReadyToShutdown NewClient servicePort pod).1
        = node.WaitUntillMigrationIsFinished 3600000000000 ∧
      (waitPodReadyToShutdown NewClient servicePort pod).2.filter ClientCall.isWait
        = [ClientCall.WaitUntillMigrationIsFinished node.GetHost 3600000000000] ∧
      (∀ e, node.WaitUntillMigrationIsFinished 3600000000000 = some e →
        (waitPodReadyToShutdown NewClient servicePort pod).1 = some e) ∧
      (node.WaitUntillMigrationIsFinished 3600000000000 = none →
        (waitPodReadyToShutdown NewClient servicePort pod).1 = none) := by
  rcases first_match_or_none pod.PodIP client.GetNodes with hno | ⟨node, hfind, hmem, hname⟩
  · obtain ⟨n, hn, hname⟩ := hlisted
    exact absurd hname (hno n hn)
  · have hres : (waitPodReadyToShutdown NewClient servicePort pod).1
        = node.WaitUntillMigrationIsFinished 3600000000000 := by
      simp [waitPodReadyToShutdown, hopen,
        waitLoop_of_first_match pod.PodIP client.GetNodes node hfind, migrationTimeout_eq]
    refine ⟨node, hmem, hname, hfind, hres, ?_, ?_, ?_⟩
    · simp [waitPodReadyToShutdown, hopen,
        waitLoop_of_first_match pod.PodIP client.GetNodes node hfind, migrationTimeout_eq,
        ClientCall.isWait]
    · intro e he
      rw [hres, he]
    · intro he
      rw [hres, he]

/-- Witness of C8: the node at the pod address still has migrations in flight when
the hour has passed; the gate fails with that error. -/
theorem waitPodReadyToShutdown_returns_migration_wait_witness :
    (waitPodReadyToShutdown
      (exampleNewClient [exampleNode "10.0.0.8" none,
        exampleNode "10.0.0.7" (some (GoError.other "migrations in flight"))])
      3000 (examplePod "cluster-2")).1 = some (GoError.other "migrations in flight") := by
  obtain ⟨node, _, _, hfind, hres, _⟩ := waitPodReadyToShutdown_returns_migration_wait
    (exampleNewClient [exampleNode "10.0.0.8" none,
      exampleNode "10.0.0.7" (some (GoError.other "migrations in flight"))])
    3000 (examplePod "cluster-2")
    ⟨[exampleNode "10.0.0.8" none,
      exampleNode "10.0.0.7" (some (GoError.other "migrations in flight"))]⟩ rfl
    ⟨exampleNode "10.0.0.7" (some (GoError.other "migrations in flight")),
      by simp, by decide⟩
  have hnode : node = exampleNode "10.0.0.7" (some (GoError.other "migrations in flight")) := by
    have h2 : [exampleNode "10.0.0.8" none,
        exampleNode "10.0.0.7" (some (GoError.other "migrations in flight"))].find?
          (fun n => decide (n.GetHost.Name = (examplePod "cluster-2").PodIP))
        = some (exampleNode "10.0.0.7" (some (GoError.other "migrations in flight"))) := by
      simp [List.find?, exampleNode, examplePod]
    exact (Option.some.inj (hfind.symm.trans h2))
  rw [hres, hnode]
  rfl

/-- Every call of the wait loop is a migration wait. -/
theorem waitLoop_calls (podIP : String) (nodes : List Node) :
    (waitLoop podIP nodes).2 = [] ∨
    ∃ host timeout,
      (waitLoop podIP nodes).2 = [ClientCall.WaitUntillMigrationIsFinished host timeout] := by
  rcases first_match_or_none podIP nodes with hno | ⟨node, hfind, _, _⟩
  · left
    rw [waitLoop_of_no_match podIP nodes hno]
  · right
    exact ⟨node.GetHost, migrationTimeout, by rw [waitLoop_of_first_match podIP nodes node hfind]⟩

/-- C9: when the client is opened, every run of `waitPodReadyToShutdown` closes it
exactly once, as its last call and after having opened it, whatever the nodes and the
answer of the migration wait, so that no connection stays open; when opening fails
the open error is returned, nothing else is called and no connection is open. -/
theorem waitPodReadyToShutdown_closes_client
    (NewClient : String → Nat → Except GoError Client) (servicePort : Nat) (pod : Pod) :
    (∀ client, NewClient pod.PodIP servicePort = .ok client →
      (waitPodReadyToShutdown NewClient servicePort pod).2.count ClientCall.Close = 1 ∧
      (waitPodReadyToShutdown NewClient servicePort pod).2.getLast? = some ClientCall.Close ∧
      (waitPodReadyToShutdown NewClient servicePort pod).2.head?
        = some (ClientCall.NewClient pod.PodIP servicePort true) ∧
      openConnections (waitPodReadyToShutdown NewClient servicePort pod).2 = 0) ∧
    (∀ err, NewClient pod.PodIP servicePort = .error err →
      (waitPodReadyToShutdown NewClient servicePort pod).1 = some err ∧
      (waitPodReadyToShutdown NewClient servicePort pod).2
        = [ClientCall.NewClient pod.PodIP servicePort false] ∧
      openConnections (waitPodReadyToShutdown NewClient servicePort pod).2 = 0) := by
  constructor
  · intro client hopen
    rcases waitLoop_calls pod.PodIP client.GetNodes with h | ⟨host, timeout, h⟩ <;>
      simp [waitPodReadyToShutdown, hopen, h, openConnections]
  · intro err hopen
    simp [waitPodReadyToShutdown, hopen, openConnections]

/-- Witness of C9: the migration wait fails, the client is closed all the same; and a
refused connection leaves nothing open. -/
theorem waitPodReadyToShutdown_closes_client_witness :
    (waitPodReadyToShutdown
      (exampleNewClient [exampleNode "10.0.0.7" (some (GoError.other "migrations in flight"))])
      3000 (examplePod "cluster-2")).2.count ClientCall.Close = 1 ∧
    (waitPodReadyToShutdown exampleNoClient 3000 (examplePod "cluster-2")).1
      = some (GoError.other "connection refused") :=
  ⟨((waitPodReadyToShutdown_closes_client
      (exampleNewClient [exampleNode "10.0.0.7" (some (GoError.other "migrations in flight"))])
      3000 (examplePod "cluster-2")).1
      ⟨[exampleNode "10.0.0.7" (some (GoError.other "migrations in flight"))]⟩ rfl).1,
   ((waitPodReadyToShutdown_closes_client exampleNoClient 3000 (examplePod "cluster-2")).2
      (GoError.other "connection refused") rfl).1⟩

end reconciler

/-! ## Theorems: `podIndex` and `byIndex` -/

namespace strconv

/-- Character code of a decimal digit character. -/
theorem digitChar_toNat (d : Nat) (hd : d < 10) :
    (Nat.digitChar d).toNat = 48 + d := by
  interval_cases d <;> rfl

/-- The digit loop on a concatenation runs on the first part, then on the second. -/
theorem parseDigits_append (l1 l2 : List Char) (acc : Nat) :
    parseDigits (l1 ++ l2) acc = (parseDigits l1 acc).bind (fun v => parseDigits l2 v) := by
  induction l1 generalizing acc with
  | nil => rfl
  | cons c rest ih =>
    simp only [List.cons_append, parseDigits]
    split_ifs
    · exact ih _
    · rfl

/-- The digit loop on one digit character appends the digit. -/
theorem parseDigits_digitChar (d acc : Nat) (hd : d < 10) :
    parseDigits [Nat.digitChar d] acc = some (acc * 10 + d) := by
  simp [parseDigits, digitChar_toNat d hd]
  omega

/-- The accumulator of `Nat.toDigitsCore` is a suffix of its result. -/
theorem toDigitsCore_append (fuel n : Nat) (ds : List Char) :
    Nat.toDigitsCore 10 fuel n ds = Nat.toDigitsCore 10 fuel n [] ++ ds := by
  induction fuel generalizing n ds with
  | zero => simp [Nat.toDigitsCore]
  | succ f ih =>
    simp only [Nat.toDigitsCore]
    split_ifs
    · simp
    · rw [ih (n / 10) (Nat.digitChar (n % 10) :: ds), ih (n / 10) [Nat.digitChar (n % 10)]]
      simp

/-- The digit loop reads back what `Nat.toDigitsCore` wrote. -/
theorem parseDigits_toDigitsCore (fuel n : Nat) (hf : n < fuel) :
    parseDigits (Nat.toDigitsCore 10 fuel n []) 0 = some n := by
  induction fuel generalizing n with
  | zero => omega
  | succ f ih =>
    simp only [Nat.toDigitsCore]
    split_ifs with h0
    · rw [parseDigits_digitChar _ _ (Nat.mod_lt _ (by norm_num))]
      have : n < 10 := by
        by_contra hc
        have : 1 ≤ n / 10 := (Nat.one_le_div_iff (by norm_num)).mpr (by omega)
        omega
      simp [Nat.mod_eq_of_lt this]
    · rw [toDigitsCore_append, parseDigits_append, ih (n / 10) (by omega)]
      simp only [Option.bind]
      rw [parseDigits_digitChar _ _ (Nat.mod_lt _ (by norm_num))]
      congr 1
      omega

/-- The digit loop reads back the decimal representation of a number. -/
theorem parseDigits_repr (n : Nat) : parseDigits (Nat.repr n).data 0 = some n := by
  simp only [Nat.repr, Nat.toDigits, List.asString]
  exact parseDigits_toDigitsCore (n + 1) n (Nat.lt_succ_self n)

/-- The decimal representation starts with a digit character. -/
theorem toDigitsCore_head (fuel n : Nat) (hf : 0 < fuel) :
    ∃ d rest, d < 10 ∧ Nat.toDigitsCore 10 fuel n [] = Nat.digitChar d :: rest := by
  induction fuel generalizing n with
  | zero => omega
  | succ f ih =>
    simp only [Nat.toDigitsCore]
    split_ifs with h0
    · exact ⟨n % 10, [], Nat.mod_lt _ (by norm_num), rfl⟩
    · rw [toDigitsCore_append]
      rcases Nat.eq_zero_or_pos f with h | h
      · subst h
        exact ⟨n % 10, [], Nat.mod_lt _ (by norm_num), rfl⟩
      · obtain ⟨d, rest, hd, he⟩ := ih (n / 10) h
        exact ⟨d, rest ++ [Nat.digitChar (n % 10)], hd, by rw [he]; rfl⟩

/-- Go `Atoi` reads back the decimal representation of a number within the `int` range. -/
theorem AtoiChars_repr (n : Nat) (hn : n < 2 ^ 63) :
    AtoiChars (Nat.repr n).data = some (Int.ofNat n) := by
  have hp := parseDigits_repr n
  obtain ⟨d, rest, hd, he⟩ := toDigitsCore_head (n + 1) n (Nat.succ_pos n)
  have hdata : (Nat.repr n).data = Nat.digitChar d :: rest := by
    simp only [Nat.repr, Nat.toDigits, List.asString]
    exact he
  rw [hdata] at hp ⊢
  have h1 : Nat.digitChar d ≠ '+' := by
    intro h
    have := congrArg Char.toNat h
    rw [digitChar_toNat d hd] at this
    have h43 : ('+' : Char).toNat = 43 := rfl
    omega
  have h2 : Nat.digitChar d ≠ '-' := by
    intro h
    have := congrArg Char.toNat h
    rw [digitChar_toNat d hd] at this
    have h45 : ('-' : Char).toNat = 45 := rfl
    omega
  simp only [AtoiChars, if_neg h1, if_neg h2, hp, intSize]
  rw [if_pos (by simpa using hn)]

end strconv

namespace strings

/-- Trimming a leading string that is there leaves the rest. -/
theorem TrimPrefix_append (pre rest : String) : TrimPrefix (pre ++ rest) pre = rest := by
  have h1 : pre.data.isPrefixOf (pre.data ++ rest.data) = true :=
    List.isPrefixOf_iff_prefix.mpr (List.prefix_append _ _)
  simp [TrimPrefix, TrimPrefixChars, String.data_append, h1]

end strings

namespace reconciler

/-- The index of a well-formed member name is its ordinal. -/
theorem podIndex_memberName (key cluster : String) (pod : Pod) (i : Nat) (hi : i < 2 ^ 63)
    (hlabel : labelValue pod.Labels key = cluster) (hname : pod.Name = memberName cluster i) :
    podIndex key pod = Int.ofNat i := by
  simp only [podIndex, hlabel, hname, memberName, strings.TrimPrefix_append, strconv.Atoi,
    strconv.AtoiChars_repr i hi]

/-- The postcondition of the sort, as a pairwise statement on the list. -/
theorem isSorted_iff_pairwise (key : String) (q : List Pod) :
    byIndex.IsSorted key q ↔ q.Pairwise (fun a b => podIndex key a ≤ podIndex key b) := by
  rw [List.pairwise_iff_get]
  simp only [byIndex.IsSorted, byIndex.Less, decide_eq_false_iff_not, not_lt]

/-- Lists with equal images under a map that is injective on their elements are equal. -/
theorem map_eq_of_map_comp_eq {α β : Type} (f : α → β) (l1 l2 : List α)
    (hinj : ∀ a ∈ l1, ∀ b ∈ l2, f a = f b → a = b)
    (h : l1.map f = l2.map f) : l1 = l2 := by
  induction l1 generalizing l2 with
  | nil =>
    cases l2 with
    | nil => rfl
    | cons b l2 => simp at h
  | cons a l1 ih =>
    cases l2 with
    | nil => simp at h
    | cons b l2 =>
      simp only [List.map_cons, List.cons.injEq] at h
      have hab : a = b := hinj a (List.mem_cons_self _ _) b (List.mem_cons_self _ _) h.1
      rw [hab, ih l2 (fun x hx y hy => hinj x (List.mem_cons_of_mem _ hx) y
        (List.mem_cons_of_mem _ hy)) h.2]

/-- A sorted permutation of the members 0 .. n-1 of a cluster lists them by ordinal. -/
theorem sorted_names (key cluster : String) (n : Nat) (p q : List Pod) (hn : n ≤ 2 ^ 63)
    (hlabel : ∀ x ∈ p, labelValue x.Labels key = cluster)
    (hnames : (p.map Pod.Name).Perm ((List.range n).map (memberName cluster)))
    (hperm : q.Perm p) (hsorted : byIndex.IsSorted key q) :
    q.map Pod.Name = (List.range n).map (memberName cluster) ∧
    q.map (podIndex key) = (List.range n).map Int.ofNat := by
  -- every pod of q is a member with an ordinal below n
  have hmem : ∀ x ∈ q, ∃ i, i < n ∧ x.Name = memberName cluster i ∧
      podIndex key x = Int.ofNat i := by
    intro x hx
    have hxp : x ∈ p := hperm.subset hx
    have : x.Name ∈ (List.range n).map (memberName cluster) :=
      hnames.subset (List.mem_map_of_mem _ hxp)
    obtain ⟨i, hi, hni⟩ := List.mem_map.mp this
    have hin : i < n := List.mem_range.mp hi
    exact ⟨i, hin, hni.symm,
      podIndex_memberName key cluster x i (by omega) (hlabel x hxp) hni.symm⟩
  -- the index of a pod of q is determined by its name
  let g : String → Int := fun name =>
    match strconv.Atoi (strings.TrimPrefix name (cluster ++ "-")) with
    | some res => res
    | none => -1
  have hg : ∀ x ∈ q, podIndex key x = g x.Name := by
    intro x hx
    simp only [podIndex, hlabel x (hperm.subset hx), g]
  have hgm : ∀ i, i < n → g (memberName cluster i) = Int.ofNat i := by
    intro i hi
    simp only [g, memberName, strings.TrimPrefix_append, strconv.Atoi,
      strconv.AtoiChars_repr i (by omega)]
  have hidx : q.map (podIndex key) = (q.map Pod.Name).map g := by
    rw [List.map_map]
    exact List.map_congr_left hg
  have hrange : ((List.range n).map (memberName cluster)).map g
      = (List.range n).map Int.ofNat := by
    rw [List.map_map]
    exact List.map_congr_left (fun i hi => hgm i (List.mem_range.mp hi))
  -- the indices of q are a sorted permutation of 0 .. n-1
  have hpermidx : (q.map (podIndex key)).Perm ((List.range n).map Int.ofNat) := by
    rw [hidx, ← hrange]
    exact ((hperm.map Pod.Name).trans hnames).map g
  have hs1 : (q.map (podIndex key)).Sorted (· ≤ ·) := by
    have := (isSorted_iff_pairwise key q).mp hsorted
    exact (List.pairwise_map).mpr this
  have hs2 : ((List.range n).map Int.ofNat).Sorted (· ≤ ·) := by
    refine (List.pairwise_map).mpr ?_
    exact (List.pairwise_lt_range n).imp (fun h => Int.ofNat_le.mpr h.le)
  have heq : q.map (podIndex key) = (List.range n).map Int.ofNat :=
    List.eq_of_perm_of_sorted hpermidx hs1 hs2
  refine ⟨?_, heq⟩
  apply map_eq_of_map_comp_eq g
  · intro a ha b hb hab
    obtain ⟨x, hx, rfl⟩ := List.mem_map.mp ha
    obtain ⟨i, hi, hni, _⟩ := hmem x hx
    obtain ⟨j, hj, rfl⟩ := List.mem_map.mp hb
    have hjn : j < n := List.mem_range.mp hj
    rw [hni, hgm i hi, hgm j hjn] at hab
    have : i = j := Int.ofNat.inj hab
    rw [hni, this]
  · rw [← hidx, heq, hrange]

end reconciler

namespace sort

open reconciler

/-- Comparing two neighbours through the interface compares their indices. -/
theorem dataLess_adjacent (key : String) (A : List Pod) (y x : Pod) (R : List Pod) :
    dataLess key (A ++ y :: x :: R) (A.length + 1) A.length
      = decide (podIndex key x < podIndex key y) := by
  have h : A.length + 1 < (A ++ y :: x :: R).length ∧ A.length < (A ++ y :: x :: R).length := by
    simp
  simp only [dataLess, dif_pos h, byIndex.Less, List.get_eq_getElem]
  simp [List.getElem_append_right]

/-- Swapping two neighbours through the interface exchanges them and nothing else. -/
theorem dataSwap_adjacent (A : List Pod) (y x : Pod) (R : List Pod) :
    dataSwap (A ++ y :: x :: R) (A.length + 1) A.length = A ++ x :: y :: R := by
  have h : A.length + 1 < (A ++ y :: x :: R).length ∧ A.length < (A ++ y :: x :: R).length := by
    simp
  simp only [dataSwap, dif_pos h, byIndex.Swap, List.get_eq_getElem]
  simp [List.getElem_append_right, List.set_append]

/-- The inner loop moves the element at position `j` to the left past the elements of the
sorted part before it that have a larger index, and stops at the first that has not. -/
theorem insertionSortInner_spec (key : String) (j : Nat) :
    ∀ (A : List Pod) (x : Pod) (R : List Pod), A.length = j →
      A.Pairwise (fun a b => podIndex key a ≤ podIndex key b) →
      ∃ A1 A2, A = A1 ++ A2 ∧
        insertionSortInner key 0 j (A ++ x :: R) = A1 ++ x :: (A2 ++ R) ∧
        (∀ y ∈ A2, podIndex key x < podIndex key y) ∧
        (∀ y ∈ A1, podIndex key y ≤ podIndex key x) := by
  induction j with
  | zero =>
    intro A x R hlen _
    have hA : A = [] := List.length_eq_zero.mp hlen
    subst hA
    exact ⟨[], [], rfl, rfl, by simp, by simp⟩
  | succ j ih =>
    intro A x R hlen hsorted
    rcases List.eq_nil_or_concat A with hA | ⟨A0, y, hA⟩
    · subst hA
      simp at hlen
    · rw [List.concat_eq_append] at hA
      subst hA
      have hlen0 : A0.length = j := by simpa using hlen
      have hs0 : A0.Pairwise (fun a b => podIndex key a ≤ podIndex key b) :=
        (List.pairwise_append.mp hsorted).1
      have hy : ∀ z ∈ A0, podIndex key z ≤ podIndex key y := by
        intro z hz
        exact (List.pairwise_append.mp hsorted).2.2 z hz y (by simp)
      have hlist : A0 ++ [y] ++ x :: R = A0 ++ y :: x :: R := by simp
      rw [hlist]
      by_cases hlt : podIndex key x < podIndex key y
      · have hstep : insertionSortInner key 0 (j + 1) (A0 ++ y :: x :: R)
            = insertionSortInner key 0 j (A0 ++ x :: (y :: R)) := by
          rw [insertionSortInner, ← hlen0, dataLess_adjacent, dataSwap_adjacent]
          simp [hlt]
        obtain ⟨A1, A2, hsplit, hres, h2, h1⟩ := ih A0 x (y :: R) hlen0 hs0
        refine ⟨A1, A2 ++ [y], ?_, ?_, ?_, h1⟩
        · rw [hsplit]; simp
        · rw [hstep, hres]; simp
        · intro z hz
          rcases List.mem_append.mp hz with hz | hz
          · exact h2 z hz
          · have : z = y := by simpa using hz
            rw [this]; exact hlt
      · have hstep : insertionSortInner key 0 (j + 1) (A0 ++ y :: x :: R)
            = A0 ++ y :: x :: R := by
          rw [insertionSortInner, ← hlen0, dataLess_adjacent]
          simp [hlt]
        refine ⟨A0 ++ [y], [], by simp, ?_, by simp, ?_⟩
        · rw [hstep]; simp
        · intro z hz
          rcases List.mem_append.mp hz with hz | hz
          · exact le_trans (hy z hz) (not_lt.mp hlt)
          · have : z = y := by simpa using hz
            rw [this]; exact not_lt.mp hlt


/-- One round of the outer loop: the slice is permuted and its sorted part is one longer. -/
theorem insertionSortInner_step (key : String) (i : Nat) (p : List Pod) (hi : i < p.length)
    (hsorted : (p.take i).Pairwise (fun a b => podIndex key a ≤ podIndex key b)) :
    (insertionSortInner key 0 i p).Perm p ∧
    ((insertionSortInner key 0 i p).take (i + 1)).Pairwise
      (fun a b => podIndex key a ≤ podIndex key b) := by
  have hp : p = p.take i ++ p[i] :: p.drop (i + 1) := by
    rw [← List.drop_eq_getElem_cons hi, List.take_append_drop]
  have hlen : (p.take i).length = i := by
    rw [List.length_take]; omega
  obtain ⟨A1, A2, hsplit, hres, h2, h1⟩ :=
    insertionSortInner_spec key i (p.take i) p[i] (p.drop (i + 1)) hlen hsorted
  rw [← hp] at hres
  have hlen12 : A1.length + A2.length = i := by
    rw [← hlen, hsplit, List.length_append]
  constructor
  · rw [hres]
    conv_rhs => rw [hp, hsplit]
    rw [List.append_assoc]
    refine List.Perm.append_left A1 ?_
    have : (x : Pod) → (A2 ++ x :: p.drop (i + 1)).Perm (x :: (A2 ++ p.drop (i + 1))) :=
      fun x => List.perm_middle
    exact (this p[i]).symm
  · have htake : (insertionSortInner key 0 i p).take (i + 1) = A1 ++ p[i] :: A2 := by
      rw [hres]
      have : A1 ++ p[i] :: (A2 ++ p.drop (i + 1)) = (A1 ++ p[i] :: A2) ++ p.drop (i + 1) := by
        simp
      rw [this, List.take_left']
      simp; omega
    rw [htake]
    rw [hsplit] at hsorted
    obtain ⟨hs1, hs2, hs12⟩ := List.pairwise_append.mp hsorted
    refine List.pairwise_append.mpr ⟨hs1, ?_, ?_⟩
    · refine List.pairwise_cons.mpr ⟨fun y hy => (h2 y hy).le, hs2⟩
    · intro a ha b hb
      rcases List.mem_cons.mp hb with hb | hb
      · rw [hb]; exact h1 a ha
      · exact hs12 a ha b hb

/-- The outer loop keeps the slice a permutation of the input and extends the sorted part
round by round. -/
theorem insertionSort_loop (key : String) (p0 : List Pod) (m : Nat) :
    ∀ (s : Nat) (p : List Pod), p.Perm p0 → (m = 0 ∨ s + m ≤ p0.length) →
      (p.take s).Pairwise (fun a b => podIndex key a ≤ podIndex key b) →
      (((List.range' s m).foldl (fun d i => insertionSortInner key 0 i d) p).Perm p0 ∧
       (((List.range' s m).foldl (fun d i => insertionSortInner key 0 i d) p).take
          (s + m)).Pairwise (fun a b => podIndex key a ≤ podIndex key b)) := by
  induction m with
  | zero =>
    intro s p hperm _ hs
    exact ⟨hperm, hs⟩
  | succ m ih =>
    intro s p hperm hbound hs
    have hb : s + (m + 1) ≤ p0.length := by
      rcases hbound with h | h
      · omega
      · exact h
    have hlen : p.length = p0.length := hperm.length_eq
    obtain ⟨hperm1, hsorted1⟩ := insertionSortInner_step key s p (by omega) hs
    have := ih (s + 1) (insertionSortInner key 0 s p) (hperm1.trans hperm)
      (Or.inr (by omega)) hsorted1
    simp only [List.range', List.foldl_cons]
    have hidx : s + (m + 1) = s + 1 + m := by omega
    rw [hidx]
    exact this

/-- The sort leaves a permutation of its input that meets `byIndex.IsSorted`. -/
theorem Sort_perm_sorted (key : String) (data : List Pod) :
    (Sort_ key data).Perm data ∧ byIndex.IsSorted key (Sort_ key data) := by
  have hinit : (data.take 1).Pairwise (fun a b => podIndex key a ≤ podIndex key b) := by
    cases data with
    | nil => simp
    | cons x xs => simp
  obtain ⟨hperm, hsorted⟩ := insertionSort_loop key data (data.length - 1) 1 data
    (List.Perm.refl _) (by omega) hinit
  have hdef : Sort_ key data
      = (List.range' 1 (data.length - 1)).foldl (fun d i => insertionSortInner key 0 i d) data := by
    simp [Sort_, insertionSort, byIndex.Len]
  rw [hdef]
  refine ⟨hperm, (isSorted_iff_pairwise key _).mpr ?_⟩
  have hlen := hperm.length_eq
  rw [List.take_of_length_le (by omega)] at hsorted
  exact hsorted

end sort

namespace reconciler

/-- C10: `byIndex.Less(i, j)` holds exactly when `podIndex(p[i]) < podIndex(p[j])`;
it is a strict weak order on the indices of the slice; in every slice that is sorted
under it `podIndex` is non-decreasing; sorting a slice with the methods `Len`, `Less`
and `Swap` of `byIndex` leaves a permutation of it that is sorted under `Less`; and
sorting the pods cluster-0 .. cluster-(n-1) of one cluster (ordinals within the `int`
range), given in any permutation, yields cluster-0, cluster-1, .., cluster-(n-1), with
indices 0, 1, .., n-1.  The last part holds for every sorting procedure: any sorted
permutation of these pods is that list. -/
theorem byIndex_orders_by_ordinal (key : String) :
    (∀ (p : List Pod) (i j : Fin p.length),
      byIndex.Less key p i j = true ↔ podIndex key (p.get i) < podIndex key (p.get j)) ∧
    (∀ p : List Pod, IsStrictWeakOrder (Fin p.length) (fun i j => byIndex.Less key p i j = true)) ∧
    (∀ q : List Pod, byIndex.IsSorted key q →
      ∀ i j : Fin q.length, i ≤ j → podIndex key (q.get i) ≤ podIndex key (q.get j)) ∧
    (∀ p : List Pod,
      (sort.Sort_ key p).Perm p ∧ byIndex.IsSorted key (sort.Sort_ key p) ∧
      ∀ i j : Fin (sort.Sort_ key p).length, i ≤ j →
        podIndex key ((sort.Sort_ key p).get i) ≤ podIndex key ((sort.Sort_ key p).get j)) ∧
    (∀ (cluster : String) (n : Nat) (p : List Pod),
      n ≤ 2 ^ 63 →
      (∀ x ∈ p, labelValue x.Labels key = cluster) →
      (p.map Pod.Name).Perm ((List.range n).map (memberName cluster)) →
      (sort.Sort_ key p).map Pod.Name = (List.range n).map (memberName cluster) ∧
      (sort.Sort_ key p).map (podIndex key) = (List.range n).map Nat.cast) ∧
    (∀ (cluster : String) (n : Nat) (p q : List Pod),
      n ≤ 2 ^ 63 →
      (∀ x ∈ p, labelValue x.Labels key = cluster) →
      (p.map Pod.Name).Perm ((List.range n).map (memberName cluster)) →
      q.Perm p → byIndex.IsSorted key q →
      q.map Pod.Name = (List.range n).map (memberName cluster) ∧
      q.map (podIndex key) = (List.range n).map Nat.cast) := by
  have hless : ∀ (p : List Pod) (i j : Fin p.length),
      byIndex.Less key p i j = true ↔ podIndex key (p.get i) < podIndex key (p.get j) := by
    intro p i j
    simp [byIndex.Less]
  have hmono : ∀ q : List Pod, byIndex.IsSorted key q →
      ∀ i j : Fin q.length, i ≤ j → podIndex key (q.get i) ≤ podIndex key (q.get j) := by
    intro q hs i j hij
    rcases eq_or_lt_of_le hij with h | h
    · rw [h]
    · have := hs i j h
      rw [← Bool.not_eq_true, hless] at this
      exact not_lt.mp this
  refine ⟨hless, ?_, hmono, ?_, ?_, ?_⟩
  · intro p
    refine { irrefl := ?_, trans := ?_, incomp_trans := ?_ }
    · intro i
      rw [hless]
      exact lt_irrefl _
    · intro i j k
      rw [hless, hless, hless]
      exact lt_trans
    · intro i j k
      rw [hless, hless, hless, hless, hless, hless]
      intro h1 h2
      constructor <;> omega
  · intro p
    obtain ⟨hperm, hsorted⟩ := sort.Sort_perm_sorted key p
    exact ⟨hperm, hsorted, hmono _ hsorted⟩
  · intro cluster n p hn hlabel hnames
    obtain ⟨hperm, hsorted⟩ := sort.Sort_perm_sorted key p
    exact sorted_names key cluster n p (sort.Sort_ key p) hn hlabel hnames hperm hsorted
  · intro cluster n p q hn hlabel hnames hperm hsorted
    exact sorted_names key cluster n p q hn hlabel hnames hperm hsorted

set_option maxRecDepth 100000 in
/-- Witness of C10: sorting the pods cluster-2, cluster-0, cluster-1 yields cluster-0,
cluster-1, cluster-2; sorting eleven pods given in lexicographic order of their names
(cluster-10 before cluster-2) yields numeric order. -/
theorem byIndex_orders_by_ordinal_witness :
    (sort.Sort_ "cluster"
      [examplePod "cluster-2", examplePod "cluster-0", examplePod "cluster-1"]).map Pod.Name
      = ["cluster-0", "cluster-1", "cluster-2"] ∧
    (sort.Sort_ "cluster"
      [examplePod "cluster-0", examplePod "cluster-1", examplePod "cluster-10",
        examplePod "cluster-2", examplePod "cluster-3", examplePod "cluster-4",
        examplePod "cluster-5", examplePod "cluster-6", examplePod "cluster-7",
        examplePod "cluster-8", examplePod "cluster-9"]).map Pod.Name
      = ["cluster-0", "cluster-1", "cluster-2", "cluster-3", "cluster-4", "cluster-5",
          "cluster-6", "cluster-7", "cluster-8", "cluster-9", "cluster-10"] :=
  ⟨((byIndex_orders_by_ordinal "cluster").2.2.2.2.1 "cluster" 3
      [examplePod "cluster-2", examplePod "cluster-0", examplePod "cluster-1"]
      (by norm_num) (by decide) (by decide)).1,
   ((byIndex_orders_by_ordinal "cluster").2.2.2.2.1 "cluster" 11
      [examplePod "cluster-0", examplePod "cluster-1", examplePod "cluster-10",
        examplePod "cluster-2", examplePod "cluster-3", examplePod "cluster-4",
        examplePod "cluster-5", examplePod "cluster-6", examplePod "cluster-7",
        examplePod "cluster-8", examplePod "cluster-9"]
      (by norm_num) (by decide) (by decide)).1⟩

end reconciler

/-! ## Theorems: `podIndex` on well-formed and malformed names -/

namespace reconciler

/-- C11: for every cluster name `c` and every ordinal `n` within the `int` range, a
pod whose cluster label is `c` and whose name is `c`, a dash and the decimal
representation of `n` has `podIndex` equal to `n`; hence two such pods of one cluster
with distinct ordinals have distinct indices. -/
theorem podIndex_recovers_ordinal (LabelClusterKey : String) :
    (∀ (c : String) (n : Nat) (pod : Pod),
      n < 2 ^ 63 →
      labelValue pod.Labels LabelClusterKey = c →
      pod.Name = c ++ "-" ++ Nat.repr n →
      podIndex LabelClusterKey pod = (n : Int)) ∧
    (∀ (c : String) (n m : Nat) (pod1 pod2 : Pod),
      n < 2 ^ 63 → m < 2 ^ 63 →
      labelValue pod1.Labels LabelClusterKey = c →
      labelValue pod2.Labels LabelClusterKey = c →
      pod1.Name = c ++ "-" ++ Nat.repr n →
      pod2.Name = c ++ "-" ++ Nat.repr m →
      n ≠ m →
      podIndex LabelClusterKey pod1 ≠ podIndex LabelClusterKey pod2) := by
  constructor
  · intro c n pod hn hlabel hname
    exact podIndex_memberName LabelClusterKey c pod n hn hlabel hname
  · intro c n m pod1 pod2 hn hm hl1 hl2 hn1 hn2 hne heq
    rw [podIndex_memberName LabelClusterKey c pod1 n hn hl1 hn1,
      podIndex_memberName LabelClusterKey c pod2 m hm hl2 hn2] at heq
    exact hne (Int.ofNat.inj heq)

/-- Witness of C11: the pod `cluster-12` of the cluster `cluster` has index 12, and an
index other than that of `cluster-2`. -/
theorem podIndex_recovers_ordinal_witness :
    podIndex "cluster" (examplePod "cluster-12") = 12 ∧
    podIndex "cluster" (examplePod "cluster-12") ≠ podIndex "cluster" (examplePod "cluster-2") :=
  ⟨(podIndex_recovers_ordinal "cluster").1 "cluster" 12 (examplePod "cluster-12")
      (by norm_num) (by decide) (by decide),
   (podIndex_recovers_ordinal "cluster").2 "cluster" 12 2 (examplePod "cluster-12")
      (examplePod "cluster-2") (by norm_num) (by norm_num) (by decide) (by decide)
      (by decide) (by decide) (by decide)⟩

/-- C12 as stated fails: the pod named `cluster--1` of the cluster `cluster` has the
remaining suffix `-1`, which `strconv.Atoi` parses as the integer -1, and `podIndex`
gives it the value -1 of the sentinel. -/
theorem podIndex_sentinel_for_parsed_suffix :
    strconv.Atoi (strings.TrimPrefix (examplePod "cluster--1").Name
      (labelValue (examplePod "cluster--1").Labels "cluster" ++ "-")) = some (-1) ∧
    podIndex "cluster" (examplePod "cluster--1") = -1 := by
  decide

/-- C12, amended: `podIndex` returns -1 whenever the name, after removal of the
"<cluster label>-" leading part, does not parse as an integer, and returns the parsed
integer whenever it does; so it returns -1 exactly when the suffix does not parse or
parses to -1 itself, and a pod whose suffix parses to a non-negative integer never gets
-1.  It is a total function: every pod, whatever its name and labels, has a value. -/
theorem podIndex_sentinel (LabelClusterKey : String) (pod : Pod) :
    (∃ v : Int, podIndex LabelClusterKey pod = v) ∧
    (strconv.Atoi (strings.TrimPrefix pod.Name
        (labelValue pod.Labels LabelClusterKey ++ "-")) = none →
      podIndex LabelClusterKey pod = -1) ∧
    (∀ v : Int, strconv.Atoi (strings.TrimPrefix pod.Name
        (labelValue pod.Labels LabelClusterKey ++ "-")) = some v →
      podIndex LabelClusterKey pod = v) ∧
    (podIndex LabelClusterKey pod = -1 ↔
      strconv.Atoi (strings.TrimPrefix pod.Name
        (labelValue pod.Labels LabelClusterKey ++ "-")) = none ∨
      strconv.Atoi (strings.TrimPrefix pod.Name
        (labelValue pod.Labels LabelClusterKey ++ "-")) = some (-1)) ∧
    (∀ v : Int, strconv.Atoi (strings.TrimPrefix pod.Name
        (labelValue pod.Labels LabelClusterKey ++ "-")) = some v → 0 ≤ v →
      podIndex LabelClusterKey pod ≠ -1) := by
  cases h : strconv.Atoi (strings.TrimPrefix pod.Name
      (labelValue pod.Labels LabelClusterKey ++ "-")) with
  | none => simp [podIndex, h]
  | some w =>
    simp only [podIndex, h]
    refine ⟨⟨w, rfl⟩, ?_, ?_, ?_, ?_⟩
    · intro hc
      cases hc
    · intro v hv
      exact Option.some.inj hv
    · constructor
      · intro hw
        right
        rw [hw]
      · rintro (hc | hc)
        · cases hc
        · exact Option.some.inj hc
    · intro v hv hv0 hw
      have : w = v := Option.some.inj hv
      omega

/-- Witness of C12, amended: a pod without cluster label and with a name that is not
a number gets -1; the pod `cluster-0` does not. -/
theorem podIndex_sentinel_witness :
    podIndex "cluster" ⟨"web-x", [], "10.0.0.9"⟩ = -1 ∧
    podIndex "cluster" (examplePod "cluster-0") ≠ -1 :=
  ⟨(podIndex_sentinel "cluster" ⟨"web-x", [], "10.0.0.9"⟩).2.1 (by decide),
   (podIndex_sentinel "cluster" (examplePod "cluster-0")).2.2.2.2 0 (by decide) (by decide)⟩

end reconciler

/-! ## Theorems: `appendCondition` -/

namespace backuprestore

/-- Sending the patch leaves the object as it was handed in. -/
theorem sendPatch_obj {σ : Type} (h : AerospikeBackupRestoreHandler σ) (target : PatchTarget)
    (oldBytes newBytes : String) (obj : BackupRestoreObject) (s : σ) :
    (sendPatch h target oldBytes newBytes obj s).obj = obj := by
  unfold sendPatch
  split
  · rfl
  · split <;> rfl

/-- Once the first serialisation has succeeded, the object leaves `appendCondition`
with the stamped condition appended, whatever happens afterwards. -/
theorem appendCondition_obj {σ : Type} (h : AerospikeBackupRestoreHandler σ)
    (obj : BackupRestoreObject) (condition : apiextensions.CustomResourceDefinitionCondition)
    (s : σ) (oldBytes : String) (hold : h.Marshal obj = .ok oldBytes) :
    (appendCondition h obj condition s).obj
      = obj.SetConditions
          (obj.GetConditions ++ [{ condition with LastTransitionTime := h.Now }]) := by
  unfold appendCondition
  simp only [hold]
  split
  · rfl
  · split_ifs
    · exact sendPatch_obj _ _ _ _ _ _
    · exact sendPatch_obj _ _ _ _ _ _
    · rfl

/-- C13: when the serialisation of the object succeeds (in particular whenever both
serialisations succeed), `appendCondition` leaves the object with the condition list
`L` followed by exactly one new element, which is the given condition with
`LastTransitionTime` set to the current time and every other field as given; the
conditions of `L` keep their positions and values and the list grows by exactly
one. -/
theorem appendCondition_append_only {σ : Type} (h : AerospikeBackupRestoreHandler σ)
    (obj : BackupRestoreObject) (condition : apiextensions.CustomResourceDefinitionCondition)
    (s : σ) (oldBytes : String) (hold : h.Marshal obj = .ok oldBytes) :
    (appendCondition h obj condition s).obj.GetConditions
      = obj.GetConditions ++
          [⟨condition.Type_, condition.Status, h.Now, condition.Reason, condition.Message⟩] ∧
    (appendCondition h obj condition s).obj.GetConditions.length
      = obj.GetConditions.length + 1 ∧
    (∀ i : Nat, i < obj.GetConditions.length →
      (appendCondition h obj condition s).obj.GetConditions[i]? = obj.GetConditions[i]?) ∧
    (appendCondition h obj condition s).obj.GetConditions[obj.GetConditions.length]?
      = some ⟨condition.Type_, condition.Status, h.Now, condition.Reason,
          condition.Message⟩ := by
  rw [appendCondition_obj h obj condition s oldBytes hold]
  refine ⟨rfl, ?_, ?_, ?_⟩
  · simp [BackupRestoreObject.SetConditions]
  · intro i hi
    simp only [BackupRestoreObject.SetConditions]
    exact List.getElem?_append_left hi
  · simp [BackupRestoreObject.SetConditions]

/-- Witness of C13: appending `RestoreFinished` at time 42 to a restore request that
carries `RestoreStarted`. -/
theorem appendCondition_append_only_witness :
    (appendCondition (exampleStatusHandler 42)
      (exampleRestore [⟨"RestoreStarted", "True", 7, "", ""⟩])
      ⟨"RestoreFinished", "True", 0, "", ""⟩ []).obj.GetConditions
      = [⟨"RestoreStarted", "True", 7, "", ""⟩, ⟨"RestoreFinished", "True", 42, "", ""⟩] :=
  (appendCondition_append_only (exampleStatusHandler 42)
    (exampleRestore [⟨"RestoreStarted", "True", 7, "", ""⟩])
    ⟨"RestoreFinished", "True", 0, "", ""⟩ [] "RestoreStarted" rfl).1

end backuprestore

/-! ## Theorems: `processQueueItem` -/

namespace controller

/-- C14: `processQueueItem` returns `nil` without invoking the handler when the key
is not a valid namespace/name key, and when the lookup of the restore object fails
with a not-found error; for any other lookup error it returns that error, again
without invoking the handler; otherwise it invokes the handler exactly once, on a copy
of the object found, and returns exactly the handler's result. -/
theorem processQueueItem_outcomes {σ : Type} (c : AerospikeNamespaceRestoreController σ)
    (key : String) (s : σ) :
    (∀ e, cache.SplitMetaNamespaceKey key = .error e →
      (processQueueItem c key s).err = none ∧
      (processQueueItem c key s).trace.filter QueueCall.isHandle = [] ∧
      (processQueueItem c key s).state = s) ∧
    (∀ ns name err, cache.SplitMetaNamespaceKey key = .ok (ns, name) →
      c.Get ns name s = .error err → errors.IsNotFound err = true →
      (processQueueItem c key s).err = none ∧
      (processQueueItem c key s).trace.filter QueueCall.isHandle = [] ∧
      (processQueueItem c key s).state = s) ∧
    (∀ ns name err, cache.SplitMetaNamespaceKey key = .ok (ns, name) →
      c.Get ns name s = .error err → errors.IsNotFound err = false →
      (processQueueItem c key s).err = some err ∧
      (processQueueItem c key s).trace.filter QueueCall.isHandle = [] ∧
      (processQueueItem c key s).state = s) ∧
    (∀ ns name obj, cache.SplitMetaNamespaceKey key = .ok (ns, name) →
      c.Get ns name s = .ok obj →
      (processQueueItem c key s).err = (c.Handle obj s).1 ∧
      (processQueueItem c key s).trace.filter QueueCall.isHandle = [QueueCall.Handle obj] ∧
      (processQueueItem c key s).trace.count (QueueCall.Handle obj) = 1 ∧
      (processQueueItem c key s).state = (c.Handle obj s).2) := by
  refine ⟨?_, ?_, ?_, ?_⟩
  · intro e hkey
    simp [processQueueItem, hkey, QueueCall.isHandle]
  · intro ns name err hkey hget hnf
    simp [processQueueItem, hkey, hget, hnf, QueueCall.isHandle]
  · intro ns name err hkey hget hnf
    simp [processQueueItem, hkey, hget, hnf, QueueCall.isHandle]
  · intro ns name obj hkey hget
    have hcopy : obj.DeepCopy = obj := rfl
    cases hh : (c.Handle obj s).1 with
    | none =>
      have hp : c.Handle obj s = (none, (c.Handle obj s).2) := by
        rw [← hh]
      simp only [processQueueItem, hkey, hget, hcopy]
      rw [hp]
      simp [QueueCall.isHandle]
    | some e =>
      have hp : c.Handle obj s = (some e, (c.Handle obj s).2) := by
        rw [← hh]
      simp only [processQueueItem, hkey, hget, hcopy]
      rw [hp]
      simp [QueueCall.isHandle]

/-- Witness of C14: a key with two slashes and the key of an object that is gone are
dropped with `nil`; a failing lookup returns its error; for `default/restore-1` the
handler runs once and its error is returned. -/
theorem processQueueItem_outcomes_witness :
    (processQueueItem (exampleController none) "a/b/c" 0).err = none ∧
    (processQueueItem (exampleController none) "default/gone" 0).trace.filter
      QueueCall.isHandle = [] ∧
    (processQueueItem (exampleController none) "broken/restore-1" 0).err
      = some (GoError.apiStatus "InternalError" "cache unavailable") ∧
    (processQueueItem (exampleController (some (GoError.other "job creation failed")))
      "default/restore-1" 0).err = some (GoError.other "job creation failed") :=
  ⟨((processQueueItem_outcomes (exampleController none) "a/b/c" 0).1
      (GoError.other "unexpected key format: \"a/b/c\"") rfl).1,
   ((processQueueItem_outcomes (exampleController none) "default/gone" 0).2.1
      "default" "gone" (GoError.apiStatus "NotFound" "gone") rfl rfl rfl).2.1,
   ((processQueueItem_outcomes (exampleController none) "broken/restore-1" 0).2.2.1
      "broken" "restore-1" (GoError.apiStatus "InternalError" "cache unavailable")
      rfl rfl rfl).1,
   ((processQueueItem_outcomes (exampleController (some (GoError.other "job creation failed")))
      "default/restore-1" 0).2.2.2 "default" "restore-1" exampleRestoreObject rfl rfl).1⟩

end controller
